import Mathlib

/-!
Verification of the multi-block topology engine of the Grid-Tools repository
(`src/inc/nmf.hpp` and `src/src/glue.cc`) against its natural-language
specification.  The C++ data structures and routines are shallowly embedded:
`size_t` values become `Nat` with explicit reduction modulo `2 ^ 64` wherever
the source performs unsigned machine arithmetic, member functions become Lean
functions, fallible routines return `Except`, and the file-reading and
file-writing routines act on lists of character lists (one per text line).
-/

namespace NMF

/-- The `size_t` modulus: unsigned machine arithmetic in the source is 64-bit. -/
def W : Nat := 2 ^ 64

/-- `size_t` addition (wraps modulo `W`). -/
def wadd (a b : Nat) : Nat := (a + b) % W

/-- `size_t` subtraction (wraps modulo `W` on underflow). -/
def wsub (a b : Nat) : Nat := (a % W + (W - b % W)) % W

-- Boundary-condition codes from the anonymous enum in class `BC` of
-- `src/inc/nmf.hpp`.
namespace BC

def COLLAPSED : Nat := 1
def ONE_TO_ONE : Nat := 2
def PATCHED : Nat := 3
def POLE_DIR1 : Nat := 4
def POLE_DIR2 : Nat := 5
def SYM_X : Nat := 6
def SYM_Y : Nat := 7
def SYM_Z : Nat := 8
def UNPROCESSED : Nat := 9
def WALL : Nat := 10
def SYM : Nat := 11
def INFLOW : Nat := 12
def OUTFLOW : Nat := 13

end BC

/-- `Mapping3D::ENTRY::RANGE` of `src/inc/nmf.hpp`: block index, face index and
the two index ranges, all `size_t` fields. -/
structure RANGE where
  B : Nat
  F : Nat
  S1 : Nat
  E1 : Nat
  S2 : Nat
  E2 : Nat
deriving Repr, DecidableEq

/-- `RANGE::pri_node_num`: `m_e1 - m_s1 + 1` in `size_t` arithmetic. -/
def RANGE.pri_node_num (r : RANGE) : Nat := wadd (wsub r.E1 r.S1) 1

/-- `RANGE::sec_node_num`: `m_e2 - m_s2 + 1` in `size_t` arithmetic. -/
def RANGE.sec_node_num (r : RANGE) : Nat := wadd (wsub r.E2 r.S2) 1

/-- `RANGE::node_num`: `pri_node_num() * sec_node_num()` in `size_t`. -/
def RANGE.node_num (r : RANGE) : Nat := r.pri_node_num * r.sec_node_num % W

/-- `RANGE::face_num`: `(pri_node_num() - 1) * (sec_node_num() - 1)` in `size_t`. -/
def RANGE.face_num (r : RANGE) : Nat :=
  wsub r.pri_node_num 1 * wsub r.sec_node_num 1 % W

/-- A 3D block (`Block3D`, restricted to its dimension data): the node counts
`m_nI, m_nJ, m_nK` along the three axes.  The `Block3D` constructor rejects any
dimension below 2; that precondition is carried as a hypothesis where needed. -/
structure Block3D where
  nI : Nat
  nJ : Nat
  nK : Nat
deriving Repr, DecidableEq

/-- `BLOCK::node_num` in the 3D case: `IDIM() * JDIM() * KDIM()` in `size_t`. -/
def Block3D.node_num (b : Block3D) : Nat := b.nI * b.nJ * b.nK % W

/-- `BLOCK::face_num` in the 3D case:
`(IDIM()-1)*JDIM()*KDIM() + IDIM()*(JDIM()-1)*KDIM() + IDIM()*JDIM()*(KDIM()-1)`
in `size_t` arithmetic. -/
def Block3D.face_num (b : Block3D) : Nat :=
  (wsub b.nI 1 * b.nJ * b.nK + b.nI * wsub b.nJ 1 * b.nK
    + b.nI * b.nJ * wsub b.nK 1) % W

/-- `BLOCK::cell_num` in the 3D case: `(IDIM()-1)*(JDIM()-1)*(KDIM()-1)` in
`size_t` arithmetic. -/
def Block3D.cell_num (b : Block3D) : Nat :=
  wsub b.nI 1 * wsub b.nJ 1 * wsub b.nK 1 % W

/-- An interface entry (`Mapping3D::ENTRY`): `SingleSideEntry` carries a
boundary-condition code and one range; `DoubleSideEntry` (created by
`readFromFile` exactly for the `ONE_TO_ONE` keyword) carries two ranges and the
swap flag. -/
inductive ENTRY where
  | single (bc : Nat) (rg1 : RANGE)
  | double (rg1 rg2 : RANGE) (swp : Bool)
deriving Repr, DecidableEq

/-- `ENTRY::Type()`. -/
def ENTRY.type : ENTRY → Nat
  | .single bc _ => bc
  | .double _ _ _ => BC.ONE_TO_ONE

/-- `ENTRY::Range1()`. -/
def ENTRY.rg1 : ENTRY → RANGE
  | .single _ r => r
  | .double r _ _ => r

/-- `DoubleSideEntry::Range2()` (first range for single-side entries, which
never reach the call sites that use it). -/
def ENTRY.rg2 : ENTRY → RANGE
  | .single _ r => r
  | .double _ r _ => r

/-- `Mapping3D::nCell`: fold of `size_t` additions of `cell_num` over the
blocks, in storage order. -/
def nCell (blks : List Block3D) : Nat :=
  blks.foldl (fun ret b => wadd ret b.cell_num) 0

/-- `Mapping3D::nFace`: the `size_t` sum of `face_num` over all blocks, then
one `size_t` subtraction of `Range1().face_num()` per `ONE_TO_ONE` entry. -/
def nFace (blks : List Block3D) (es : List ENTRY) : Nat :=
  es.foldl (fun ret e => if e.type = BC.ONE_TO_ONE then wsub ret e.rg1.face_num else ret)
    (blks.foldl (fun ret b => wadd ret b.face_num) 0)

/-- The value claimed for `nFace` by the specification, written from the
spec's words: the sum over all blocks of
`(nI-1)*nJ*nK + nI*(nJ-1)*nK + nI*nJ*(nK-1)` minus, for every `ONE_TO_ONE`
entry, `(e1-s1)*(e2-s2)` of that entry's first range, all over unsigned
machine integers. -/
def nFaceClaim (blks : List Block3D) (es : List ENTRY) : Nat :=
  es.foldl
    (fun ret e =>
      if e.type = BC.ONE_TO_ONE then
        wsub ret (wsub e.rg1.E1 e.rg1.S1 * wsub e.rg1.E2 e.rg1.S2 % W)
      else ret)
    (blks.foldl
      (fun ret b =>
        wadd ret ((wsub b.nI 1 * b.nJ * b.nK + b.nI * wsub b.nJ 1 * b.nK
          + b.nI * b.nJ * wsub b.nK 1) % W))
      0)

/-- The four bounding edges of each surface, as wired in the `Block3D`
constructor (`m_surf[s-1].includedEdge`), converted from 0-based array cells to
the 1-based NMF edge indices they point at, in source order. -/
def includedEdge : Nat → List Nat
  | 1 => [5, 9, 8, 12]
  | 2 => [6, 11, 7, 10]
  | 3 => [1, 10, 4, 9]
  | 4 => [2, 12, 3, 11]
  | 5 => [1, 5, 2, 6]
  | 6 => [3, 8, 4, 7]
  | _ => []

/-- The two dependent surfaces of each edge, as wired in the `Block3D`
constructor (`m_edge[e-1].dependentSurf`), converted to 1-based surface
indices, in source order.  Nothing in the source ever rewrites
`includedEdge` or `dependentSurf` after construction (later phases touch only
`neighbourSurf` and the global indices), so these constants describe every
block at every stage. -/
def dependentSurf : Nat → List Nat
  | 1 => [3, 5]
  | 2 => [5, 4]
  | 3 => [4, 6]
  | 4 => [6, 3]
  | 5 => [1, 5]
  | 6 => [5, 2]
  | 7 => [2, 6]
  | 8 => [6, 1]
  | 9 => [1, 3]
  | 10 => [3, 2]
  | 11 => [2, 4]
  | 12 => [4, 1]
  | _ => []

/-- Dimension sanity for an embedded block: the `Block3D` constructor enforces
every dimension at least 2, and dimensions originate from `int` values, hence
are below the `size_t` modulus. -/
def dimOK (b : Block3D) : Prop :=
  2 ≤ b.nI ∧ b.nI < W ∧ 2 ≤ b.nJ ∧ b.nJ < W ∧ 2 ≤ b.nK ∧ b.nK < W

instance (b : Block3D) : Decidable (dimOK b) := by unfold dimOK; infer_instance

/-- `Block3D::cell(i,j,k)`: the 0-based flat index of cell `(i,j,k)` inside the
block's `m_cell` array, `i0 + (m_nI - 1) * (j0 + (m_nJ - 1) * k0)`. -/
def flat (nI nJ i j k : Nat) : Nat :=
  (i - 1) + (nI - 1) * ((j - 1) + (nJ - 1) * (k - 1))

/-- The K-outer, J-middle, I-inner traversal order of the cell loops of
`Mapping3D::numbering` (1-based indices with exclusive upper bounds, matching
the source's `for (k = 1; k < cK; ++k)` etc.). -/
def cellVisit (nI nJ nK : Nat) : List (Nat × Nat × Nat) :=
  (List.range' 1 (nK - 1)).flatMap fun k =>
    (List.range' 1 (nJ - 1)).flatMap fun j =>
      (List.range' 1 (nI - 1)).map fun i => (i, j, k)

/-- The `CellSeq` fields of all blocks' `m_cell` arrays, as a map from
0-based block position (storage order of `m_blk`) and flat cell index to the
assigned id; 0 means unassigned. -/
def CellStore : Type := Nat → Nat → Nat

/-- Pointwise array write. -/
def updStore (st : CellStore) (b idx v : Nat) : CellStore :=
  fun b2 i2 => if b2 = b ∧ i2 = idx then v else st b2 i2

/-- The loop body `blk->cell(i, j, k).CellSeq() = ++cnt`: the counter is
tracked exactly (a ghost of the `size_t` counter, whose machine value is its
residue mod `W`), and the stored `size_t` value is reduced mod `W`. -/
def cellAssign (p nI nJ : Nat) (ac : CellStore × Nat) (c : Nat × Nat × Nat) :
    CellStore × Nat :=
  (updStore ac.1 p (flat nI nJ c.1 c.2.1 c.2.2) ((ac.2 + 1) % W), ac.2 + 1)

/-- The triple cell loop of `Mapping3D::numbering` for the block at
position `p`. -/
def sweepBlock (p : Nat) (b : Block3D) (ac : CellStore × Nat) :
    CellStore × Nat :=
  (cellVisit b.nI b.nJ b.nK).foldl (cellAssign p b.nI b.nJ) ac

/-- The `for (auto &blk : m_blk)` cell loop: blocks in storage order. -/
def cellSweepAux (p : Nat) (blks : List Block3D) (ac : CellStore × Nat) :
    CellStore × Nat :=
  match blks with
  | [] => ac
  | b :: rest => cellSweepAux (p + 1) rest (sweepBlock p b ac)

/-- The complete cell-indexing sweep of `Mapping3D::numbering`, from
unassigned stores and `cnt = 0`. -/
def cellSweep (blks : List Block3D) : CellStore × Nat :=
  cellSweepAux 0 blks (fun _ _ => 0, 0)

/-- Exact (non-wrapping) total cell count, used to state fit conditions. -/
def nCellExact (blks : List Block3D) : Nat :=
  (blks.map fun b => (b.nI - 1) * (b.nJ - 1) * (b.nK - 1)).sum

/-- `Mapping3D::numbering` can raise `std::length_error` after the cell sweep
(if the cell counter misses `nCell()`) or after the face sweep (if the - never
incremented - face counter misses `nFace()`). -/
inductive NumErr where
  | cellMismatch
  | faceMismatch
deriving Repr, DecidableEq

/-- `Mapping3D::numbering`: the cell sweep assigns `++cnt` to every cell in
block storage order, K-J-I within each block, and the result is checked
against `nCell()`; the subsequent face sweep iterates the blocks with an empty
(`TODO`) body, leaving its counter at 0, which is checked against `nFace()`;
the node phase is also an empty `TODO`.  The returned pair holds the final
cell stores (mutations persist even when the exception is raised) and the
exception, if any. -/
def numbering (blks : List Block3D) (es : List ENTRY) :
    CellStore × Option NumErr :=
  let r := cellSweep blks
  if r.2 % W ≠ nCell blks then (r.1, some NumErr.cellMismatch)
  else if 0 ≠ nFace blks es then (r.1, some NumErr.faceMismatch)
  else (r.1, none)

/-- Conversion of a `size_t` value to `long long`, as performed when a
`size_t` is passed to `Array1D::operator()` (two's-complement wraparound, the
behaviour of every supported platform). -/
def toInt64 (n : Nat) : Int :=
  if n % W < 2 ^ 63 then ((n % W : Nat) : Int) else ((n % W : Nat) : Int) - (W : Int)

/-- Conversion of a `size_t` value to `int`, as performed when a `size_t`
face index is passed to `Block3D::surf` (two's-complement wraparound). -/
def toInt32 (n : Nat) : Int :=
  if n % 2 ^ 32 < 2 ^ 31 then ((n % 2 ^ 32 : Nat) : Int)
  else ((n % 2 ^ 32 : Nat) : Int) - (2 ^ 32 : Int)

/-- `Array1D::operator()` index resolution over a container of `N` slots:
1-based positive indexing, negative indexing from the back, exception
(`none`) otherwise.  Returns the resolved 1-based slot id. -/
def arrIdx (N : Nat) (i : Nat) : Option Nat :=
  let v := toInt64 i
  if 1 ≤ v ∧ v ≤ (N : Int) then some v.toNat
  else if -(N : Int) ≤ v ∧ v ≤ -1 then some (((N : Int) + v).toNat + 1)
  else none

/-- `Block3D::surf` index resolution: surface ids 1..6, negative indexing from
the back, exception (`none`) otherwise.  Returns the resolved 1-based
surface id. -/
def surfIdx (f : Nat) : Option Nat :=
  let v := toInt32 f
  if 1 ≤ v ∧ v ≤ 6 then some v.toNat
  else if -6 ≤ v ∧ v ≤ -1 then some (((6 : Int) + v).toNat + 1)
  else none

/-- The `neighbourSurf` pointers of all surfaces of all blocks: a map from
(1-based block id, 1-based surface id) to the surface pointed at, `none` for
the null pointer every surface starts with. -/
def NeighMap : Type := Nat × Nat → Option (Nat × Nat)

/-- Pointer assignment `F->neighbourSurf = G`. -/
def updNeigh (m : NeighMap) (k v : Nat × Nat) : NeighMap :=
  fun x => if x = k then some v else m x

/-- Errors raised (or undefined behaviour reached) inside
`Mapping3D::readFromFile`. -/
inductive ParseErr where
  | badHeader
  | badDimLine
  | badBlockIdx
  | badDim
  | ctorDim
  | intOverflow
  | unknownBC
  | badArrayIdx
  | badSurfIdx
  | nullBlock
  | hung
  | badBC
deriving Repr, DecidableEq

/-- One iteration of the connectivity-establishing loop of
`Mapping3D::readFromFile`: for a `ONE_TO_ONE` entry, resolve both blocks
(`m_blk(...)`, which throws on a bad id), dereference each (undefined
behaviour - modelled as `nullBlock` - when the slot was never filled), resolve
both surfaces (`surf(...)` throws on a bad id) and set the two `neighbourSurf`
pointers to each other, in source order.  Other entries are skipped. -/
def connectOne (slots : List (Option Block3D)) (m : NeighMap) (e : ENTRY) :
    Except ParseErr NeighMap :=
  if e.type = BC.ONE_TO_ONE then
    match arrIdx slots.length e.rg1.B with
    | none => .error .badArrayIdx
    | some b1 =>
      match arrIdx slots.length e.rg2.B with
      | none => .error .badArrayIdx
      | some b2 =>
        match (slots.get? (b1 - 1)).getD none with
        | none => .error .nullBlock
        | some _ =>
          match surfIdx e.rg1.F with
          | none => .error .badSurfIdx
          | some f1 =>
            match (slots.get? (b2 - 1)).getD none with
            | none => .error .nullBlock
            | some _ =>
              match surfIdx e.rg2.F with
              | none => .error .badSurfIdx
              | some f2 =>
                .ok (updNeigh (updNeigh m (b1, f1) (b2, f2)) (b2, f2) (b1, f1))
  else .ok m

/-- The connectivity loop over all entries, threading the pointer state. -/
def connFold (slots : List (Option Block3D)) (m : NeighMap) :
    List ENTRY → Except ParseErr NeighMap
  | [] => .ok m
  | e :: rest =>
    match connectOne slots m e with
    | .error err => .error err
    | .ok m2 => connFold slots m2 rest

/-- The "Establish connectivity" pass of `Mapping3D::readFromFile`, starting
from all-null `neighbourSurf` pointers.  (The subsequent "Counterpart
information" loop repeats the same lookups and has otherwise empty branches,
so it adds nothing to the state.) -/
def establishConn (slots : List (Option Block3D)) (es : List ENTRY) :
    Except ParseErr NeighMap :=
  connFold slots (fun _ => none) es

/-- The two raw (block id, face id) sides of each `ONE_TO_ONE` entry. -/
def otoPairs (es : List ENTRY) : List ((Nat × Nat) × (Nat × Nat)) :=
  es.filterMap fun e =>
    match e with
    | .double r1 r2 _ => some ((r1.B, r1.F), (r2.B, r2.F))
    | .single _ _ => none

/-- All surfaces named by `ONE_TO_ONE` entries, both sides, in order. -/
def otoKeys (es : List ENTRY) : List (Nat × Nat) :=
  (otoPairs es).flatMap fun pr => [pr.1, pr.2]

/-- A range whose block and face references resolve without exception or null
dereference: block id within 1..N naming a filled slot, face id within 1..6
(small enough that the machine-integer conversions are the identity). -/
def rangeRefOK (slots : List (Option Block3D)) (r : RANGE) : Prop :=
  1 ≤ r.B ∧ r.B ≤ slots.length ∧ r.B < 2 ^ 63 ∧ 1 ≤ r.F ∧ r.F ≤ 6 ∧
    (((slots.get? (r.B - 1)).getD none).isSome = true)

instance (slots : List (Option Block3D)) (r : RANGE) :
    Decidable (rangeRefOK slots r) := by unfold rangeRefOK; infer_instance

/-- `Mapping3D::isWhite`. -/
def isWhite (c : Char) : Bool := c = '\n' || c = ' ' || c = '\t'

def notWhite (c : Char) : Bool := !isWhite c

/-- `Mapping3D::isBlankLine`. -/
def isBlankLine (s : List Char) : Bool := s.all isWhite

/-- `Mapping3D::checkStarting`: whether the first non-white character is `c`. -/
def checkStarting : List Char → Char → Bool
  | [], _ => false
  | c :: rest, t => if isWhite c then checkStarting rest t else c = t

/-- `BC::str_formalize` on one character: upper-case, then `-` to `_`. -/
def formalizeChar (c : Char) : Char :=
  let u := c.toUpper
  if u = '-' then '_' else u

/-- Character-by-character whitespace tokenizer (accumulating the current
token reversed). -/
def tokenizeGo : List Char → List Char → List (List Char)
  | [], cur => if cur.isEmpty then [] else [cur.reverse]
  | c :: rest, cur =>
    if isWhite c then
      if cur.isEmpty then tokenizeGo rest [] else cur.reverse :: tokenizeGo rest []
    else tokenizeGo rest (c :: cur)

/-- Whitespace tokenization, the common behaviour of `operator>>` extraction
and of the `\s`-separated groups of the two header regexes. -/
def tokenize (s : List Char) : List (List Char) := tokenizeGo s []

/-- Decimal digit to character. -/
def digit2char (d : Nat) : Char := Char.ofNat (48 + d)

/-- Character to decimal digit value. -/
def char2digit (c : Char) : Nat := c.toNat - 48

/-- Most-significant-first digit rendering (fuel-bounded structural
recursion; any fuel at least `n` yields all digits). -/
def natReprGo : Nat → Nat → List Char
  | 0, _ => []
  | fuel + 1, n =>
    if n = 0 then [] else natReprGo fuel (n / 10) ++ [digit2char (n % 10)]

/-- Decimal rendering of a natural number, as `operator<<` prints it. -/
def natRepr (n : Nat) : List Char :=
  if n = 0 then ['0'] else natReprGo n n

/-- Value of a decimal digit string. -/
def readNat (t : List Char) : Nat :=
  Nat.ofDigits 10 ((t.map char2digit).reverse)

/-- A well-formed digit token. -/
def digitTok (t : List Char) : Bool := !t.isEmpty && t.all Char.isDigit

/-- `std::stoi` on a digit token: the parsed value, or `out_of_range` past
`INT_MAX`. -/
def stoi (t : List Char) : Except ParseErr Nat :=
  if readNat t ≤ 2147483647 then .ok (readNat t) else .error .intOverflow

/-- `operator>>` into a `size_t` from a whitespace token, restricted to the
digit-token domain every theorem below stays within: succeeds exactly on
non-empty all-digit tokens whose value fits `size_t`. -/
def numTok (t : List Char) : Option Nat :=
  if digitTok t ∧ readNat t < W then some (readNat t) else none

/-- Sequential `operator>>` reads of `k` `size_t` values from the stream's
token buffer: a failed read (end of buffer, non-numeric token, overflow) sets
the fail state, stops consuming, and leaves the remaining values at their
zero initialisation, as in the source's `size_t connectivity[2][6] = { 0 }`.
Returns the values, the unconsumed buffer and the success flag. -/
def readNumsBuf : Nat → List (List Char) → List Nat × List (List Char) × Bool
  | 0, buf => ([], buf, true)
  | k + 1, buf =>
    match buf with
    | [] => (List.replicate (k + 1) 0, [], false)
    | t :: rest =>
      match numTok t with
      | none => (List.replicate (k + 1) 0, t :: rest, false)
      | some v =>
        let r := readNumsBuf k rest
        (v :: r.1, r.2.1, r.2.2)

/-- Pack six read values into a `RANGE`. -/
def listRange (l : List Nat) : RANGE :=
  ⟨l.getD 0 0, l.getD 1 0, l.getD 2 0, l.getD 3 0, l.getD 4 0, l.getD 5 0⟩

/-- `BC::str2idx` on an already-formalized token. -/
def str2idx (t : List Char) : Option Nat :=
  if t = "COLLAPSED".toList then some BC.COLLAPSED
  else if t = "ONE_TO_ONE".toList then some BC.ONE_TO_ONE
  else if t = "PATCHED".toList then some BC.PATCHED
  else if t = "POLE_DIR1".toList then some BC.POLE_DIR1
  else if t = "POLE_DIR2".toList then some BC.POLE_DIR2
  else if t = "SYM_X".toList then some BC.SYM_X
  else if t = "SYM_Y".toList then some BC.SYM_Y
  else if t = "SYM_Z".toList then some BC.SYM_Z
  else if t = "UNPROCESSED".toList then some BC.UNPROCESSED
  else if t = "WALL".toList then some BC.WALL
  else if t = "SYM".toList then some BC.SYM
  else if t = "SYMMETRY".toList then some BC.SYM
  else if t = "INFLOW".toList then some BC.INFLOW
  else if t = "OUTFLOW".toList then some BC.OUTFLOW
  else none

/-- `BC::idx2str`. -/
def idx2str (bc : Nat) : Option (List Char) :=
  if bc = BC.COLLAPSED then some "COLLAPSED".toList
  else if bc = BC.ONE_TO_ONE then some "ONE_TO_ONE".toList
  else if bc = BC.PATCHED then some "PATCHED".toList
  else if bc = BC.POLE_DIR1 then some "POLE_DIR1".toList
  else if bc = BC.POLE_DIR2 then some "POLE_DIR2".toList
  else if bc = BC.SYM_X then some "SYM_X".toList
  else if bc = BC.SYM_Y then some "SYM_Y".toList
  else if bc = BC.SYM_Z then some "SYM_Z".toList
  else if bc = BC.UNPROCESSED then some "UNPROCESSED".toList
  else if bc = BC.WALL then some "WALL".toList
  else if bc = BC.SYM then some "SYM".toList
  else if bc = BC.INFLOW then some "INFLOW".toList
  else if bc = BC.OUTFLOW then some "OUTFLOW".toList
  else none

/-- The header/separator-skipping `do { getline } while (blank or '#')` loops:
the first line that is neither blank nor `#`-starting, with the remaining
lines; `none` when the file runs out (the source then spins forever on the
failed stream). -/
def skipHeader : List (List Char) → Option (List Char × List (List Char))
  | [] => none
  | l :: rest =>
    if isBlankLine l || checkStarting l '#' then skipHeader rest
    else some (l, rest)

/-- The regex `\s*(\d+)\s*` of the block-count line: exactly one token, all
digits. -/
def matchSingleNat (l : List Char) : Option (List Char) :=
  match tokenize l with
  | [t] => if digitTok t then some t else none
  | _ => none

/-- The regex `\s*(\d+)\s+(\d+)\s+(\d+)\s+(\d+)\s*` of a dimension line. -/
def matchDimLine (l : List Char) :
    Option (List Char × List Char × List Char × List Char) :=
  match tokenize l with
  | [a, b, c, d] =>
    if digitTok a && digitTok b && digitTok c && digitTok d then
      some (a, b, c, d)
    else none
  | _ => none

/-- The block-dimension reading loop of `Mapping3D::readFromFile`: one
`getline` per block (a missing line reads as the empty string and fails the
regex), `std::stoi` on the four captures, the id/dimension checks in source
order, and the `Block3D` constructor (which rejects dimensions below 2);
`m_blk(idx) = new Block3D(...)` overwrites the 1-based slot `idx`. -/
def readBlocksLoop (N : Nat) :
    Nat → List (Option Block3D) → List (List Char) →
    Except ParseErr (List (Option Block3D) × List (List Char))
  | 0, slots, lines => .ok (slots, lines)
  | i + 1, slots, lines =>
    let l := lines.headD []
    let rest := lines.tail
    match matchDimLine l with
    | none => .error .badDimLine
    | some (a, b, c, d) =>
      match stoi a, stoi b, stoi c, stoi d with
      | .ok idx, .ok iM, .ok jM, .ok kM =>
        if idx < 1 ∨ idx > N then .error .badBlockIdx
        else if iM < 1 then .error .badDim
        else if jM < 1 then .error .badDim
        else if kM < 1 then .error .badDim
        else if iM < 2 ∨ jM < 2 ∨ kM < 2 then .error .ctorDim
        else readBlocksLoop N i (slots.set (idx - 1) (some ⟨iM, jM, kM⟩)) rest
      | _, _, _, _ => .error .intOverflow

/-- One iteration of the connection-reading loop body: formalize the line,
append its tokens to the (never reset) stringstream buffer, read the
boundary-condition keyword (an empty or unknown keyword makes `BC::str2idx`
throw), then either 12 `size_t` values plus the swap token (`ONE_TO_ONE`) or
6 values, building the entry exactly as the source does - partial reads leave
the zero-initialised fields and the unconsumed tokens stay in the buffer. -/
def entryIter (buf : List (List Char)) (s : List Char) :
    Except ParseErr (List (List Char) × ENTRY) :=
  let buf2 := buf ++ tokenize (s.map formalizeChar)
  match buf2 with
  | [] => .error .unknownBC
  | bct :: rest =>
    match str2idx bct with
    | none => .error .unknownBC
    | some bc =>
      if bc = BC.ONE_TO_ONE then
        let r := readNumsBuf 12 rest
        let sw := if r.2.2 then
            match r.2.1 with
            | t :: rest2 => (decide (t = "TRUE".toList), rest2)
            | [] => (false, ([] : List (List Char)))
          else (false, r.2.1)
        .ok (sw.2, ENTRY.double (listRange (r.1.take 6)) (listRange (r.1.drop 6)) sw.1)
      else
        let r := readNumsBuf 6 rest
        .ok (r.2.1, ENTRY.single bc (listRange r.1))

/-- The `do { ... } while (std::getline(mfp, s))` connection loop. -/
def entryLoop : List Char → List (List Char) → List (List Char) → List ENTRY →
    Except ParseErr (List ENTRY)
  | s, lines, buf, acc =>
    match entryIter buf s with
    | .error e => .error e
    | .ok (buf2, ent) =>
      match lines with
      | [] => .ok (acc ++ [ent])
      | l2 :: rest => entryLoop l2 rest buf2 (acc ++ [ent])

/-- `Mapping3D::readFromFile` on the lines of the input file: skip the
header, match the block count (rejecting zero), read the `N` dimension lines,
skip separators, read the connection entries, then run the
connectivity-establishing pass (whose lookups can throw); the block slots and
the entry list result. -/
def readFromFile (lines : List (List Char)) :
    Except ParseErr (List (Option Block3D) × List ENTRY) :=
  match skipHeader lines with
  | none => .error .hung
  | some (s0, rest0) =>
    match matchSingleNat s0 with
    | none => .error .badHeader
    | some t =>
      match stoi t with
      | .error e => .error e
      | .ok N =>
        if N = 0 then .error .badHeader
        else
          match readBlocksLoop N N (List.replicate N none) rest0 with
          | .error e => .error e
          | .ok (slots, rest1) =>
            match skipHeader rest1 with
            | none => .error .hung
            | some (s1, rest2) =>
              match entryLoop s1 rest2 [] [] with
              | .error e => .error e
              | .ok es =>
                match establishConn slots es with
                | .error e => .error e
                | .ok _ => .ok (slots, es)

/-- `std::setw(n)` padding for right-aligned output. -/
def spaces (n : Nat) : List Char := List.replicate n ' '

def padLeft (w : Nat) (t : List Char) : List Char := spaces (w - t.length) ++ t

def padRight (w : Nat) (t : List Char) : List Char := t ++ spaces (w - t.length)

/-- One interface/boundary line of `Mapping3D::writeToFile`, with the source's
column widths (13 left-aligned for the keyword, then 6/6/9/6/9/6 and, for
`ONE_TO_ONE`, 9/6/9/6/9/6 and 10 for the swap token). -/
def entryLine (kw : List Char) (e : ENTRY) : List Char :=
  padRight 13 kw
    ++ padLeft 6 (natRepr e.rg1.B) ++ padLeft 6 (natRepr e.rg1.F)
    ++ padLeft 9 (natRepr e.rg1.S1) ++ padLeft 6 (natRepr e.rg1.E1)
    ++ padLeft 9 (natRepr e.rg1.S2) ++ padLeft 6 (natRepr e.rg1.E2)
    ++ match e with
      | .single _ _ => []
      | .double _ r2 swp =>
        padLeft 9 (natRepr r2.B) ++ padLeft 6 (natRepr r2.F)
          ++ padLeft 9 (natRepr r2.S1) ++ padLeft 6 (natRepr r2.E1)
          ++ padLeft 9 (natRepr r2.S2) ++ padLeft 6 (natRepr r2.E2)
          ++ padLeft 10 (if swp then "TRUE".toList else "FALSE".toList)

/-- One block-dimension line of `Mapping3D::writeToFile` (`i` is the 0-based
loop counter; the printed block number is `i + 1`). -/
def dimLine (i : Nat) (b : Block3D) : List Char :=
  padLeft 8 (natRepr (i + 1)) ++ padLeft 8 (natRepr b.nI)
    ++ padLeft 8 (natRepr b.nJ) ++ padLeft 8 (natRepr b.nK)

/-- The four header comment lines and the three separator comment lines the
writer emits. -/
def headerLines : List (List Char) :=
  ['#' :: ' ' :: (List.replicate 24 '='
      ++ " Neutral Map File generated by the Grid-Glue software ".toList
      ++ List.replicate 30 '='),
   '#' :: ' ' :: List.replicate 108 '=',
   "# Block#    IDIM    JDIM    KDIM".toList,
   '#' :: ' ' :: List.replicate 108 '-']

def sepLines : List (List Char) :=
  ['#' :: ' ' :: List.replicate 108 '=',
   "# Type           B1    F1       S1    E1       S2    E2       B2    F2       S1    E1       S2    E2      Swap".toList,
   '#' :: ' ' :: List.replicate 108 '-']

/-- Render all entry lines; `BC::idx2str` throws on an unknown code. -/
def entryLinesOf : List ENTRY → Except ParseErr (List (List Char))
  | [] => .ok []
  | e :: rest =>
    match idx2str e.type with
    | none => .error .badBC
    | some kw =>
      match entryLinesOf rest with
      | .error err => .error err
      | .ok ls => .ok (entryLine kw e :: ls)

/-- `Mapping3D::writeToFile`: header comment lines, the block count and the
dimension lines (all `setw(8)`), the separator comment lines, then one line
per entry.  Defined on models whose block slots are all filled (the writer
dereferences every slot). -/
def writeToFile (blks : List Block3D) (es : List ENTRY) :
    Except ParseErr (List (List Char)) :=
  match entryLinesOf es with
  | .error err => .error err
  | .ok els =>
    .ok (headerLines
      ++ [padLeft 8 (natRepr blks.length)]
      ++ (blks.enum.map fun pb => dimLine pb.1 pb.2)
      ++ sepLines ++ els)

/-- Lift a slot list with no null entries. -/
def liftSlots : List (Option Block3D) → Option (List Block3D)
  | [] => some []
  | none :: _ => none
  | some b :: rest =>
    match liftSlots rest with
    | none => none
    | some l => some (b :: l)

/-- The file-loading constructor `Mapping3D(const std::string &inp)`:
`readFromFile` followed by `numbering()`.  The result is the final cell store
when the constructor returns normally; `none` when either step throws (or
`numbering` dereferences a null block slot, which is undefined behaviour). -/
def fileCtor (lines : List (List Char)) : Option CellStore :=
  match readFromFile lines with
  | .error _ => none
  | .ok (slots, es) =>
    match liftSlots slots with
    | none => none
    | some blks =>
      match (numbering blks es).2 with
      | some _ => none
      | none => some (numbering blks es).1

/-- A boundary-condition code of the `BC` enum (1..13). -/
def validBC (bc : Nat) : Prop := 1 ≤ bc ∧ bc ≤ 13

instance (bc : Nat) : Decidable (validBC bc) := by unfold validBC; infer_instance

/-- The canonical keyword of a valid boundary-condition code. -/
def kwOf (bc : Nat) : List Char := (idx2str bc).getD []

/-- The numeric view of a dimension line: the four captured values when the
line matches the dimension regex. -/
def dimVals (l : List Char) : Option (Nat × Nat × Nat × Nat) :=
  match matchDimLine l with
  | some (a, b, c, d) => some (readNat a, readNat b, readNat c, readNat d)
  | none => none

/-- The block a dimension-line value tuple constructs. -/
def blockOf (v : Nat × Nat × Nat × Nat) : Block3D := ⟨v.2.1, v.2.2.1, v.2.2.2⟩

/-- Dimensions accepted by the parser that also fit strictly inside the
writer's `setw(8)` columns. -/
def goodDims (b : Block3D) : Prop :=
  2 ≤ b.nI ∧ b.nI < 10 ^ 7 ∧ 2 ≤ b.nJ ∧ b.nJ < 10 ^ 7 ∧ 2 ≤ b.nK ∧ b.nK < 10 ^ 7

instance (b : Block3D) : Decidable (goodDims b) := by unfold goodDims; infer_instance

/-- Entry fields that fit strictly inside the writer's columns (width-6
columns take values below `10^5`, width-9 columns values below `10^8`), with
a valid boundary-condition code (and, for single-side entries, one other than
`ONE_TO_ONE`, as the parser guarantees). -/
def entryFieldsOK : ENTRY → Prop
  | .single bc r =>
    validBC bc ∧ bc ≠ BC.ONE_TO_ONE ∧ r.B < 10 ^ 5 ∧ r.F < 10 ^ 5 ∧
      r.S1 < 10 ^ 8 ∧ r.E1 < 10 ^ 5 ∧ r.S2 < 10 ^ 8 ∧ r.E2 < 10 ^ 5
  | .double r1 r2 _ =>
    (r1.B < 10 ^ 5 ∧ r1.F < 10 ^ 5 ∧ r1.S1 < 10 ^ 8 ∧ r1.E1 < 10 ^ 5 ∧
      r1.S2 < 10 ^ 8 ∧ r1.E2 < 10 ^ 5) ∧
    (r2.B < 10 ^ 8 ∧ r2.F < 10 ^ 5 ∧ r2.S1 < 10 ^ 8 ∧ r2.E1 < 10 ^ 5 ∧
      r2.S2 < 10 ^ 8 ∧ r2.E2 < 10 ^ 5)

instance (e : ENTRY) : Decidable (entryFieldsOK e) := by
  cases e <;> (unfold entryFieldsOK; infer_instance)

/-- Reference validity of every `ONE_TO_ONE` entry of a model. -/
def otoRefsOK (slots : List (Option Block3D)) (es : List ENTRY) : Prop :=
  ∀ e ∈ es, e.type = BC.ONE_TO_ONE →
    rangeRefOK slots e.rg1 ∧ rangeRefOK slots e.rg2

instance (slots : List (Option Block3D)) (es : List ENTRY) :
    Decidable (otoRefsOK slots es) := by
  unfold otoRefsOK
  infer_instance

-- ==== Face assembly of the Fluent-mesh glue (src/src/glue.cc) ====
--
-- The face-copying section of `GridTool::XF::MESH::MESH` (glue.cc lines
-- 112-496) runs, for each block, three internal-face loops and six
-- surface-face loops.  The cell attributes it reads - `CellSeq()`,
-- `NodeSeq(r)` and `FaceSeq(r)` of cell `(i,j,k)`, filled by the numbering
-- phase declared in the absent header `nmf.h` - enter the embedding as
-- arbitrary function parameters `cs`, `ns` and `fseq`, so every theorem
-- below holds for any numbering.  A face store entry plays the role of the
-- `visited` flag together with the `FACE` record: `none` is an unvisited
-- face, `some` a visited one.

/-- The fields of an `XF::FACE` record that the face-assembly loops write:
`atBdry`, the element type (`quad` records that `type` was set to
`FACE::QUADRILATERAL`), the four node indices `includedNode(1..4)`, and the
left and right cell indices. -/
structure FACE where
  atBdry : Bool
  quad : Bool
  includedNode : List Nat
  leftCell : Nat
  rightCell : Nat

/-- One loop iteration of the face-assembly section: the face index it
addresses, the record its first-visit branch writes, and whether the body is
one of the six surface loops (which test `visited` and patch or throw on a
second visit) rather than an internal loop (which writes unconditionally). -/
structure GlueItem where
  key : Nat
  fr : FACE
  surfCheck : Bool

/-- The two `std::runtime_error` throws of the surface-loop bodies. -/
inductive GlueErr where
  | bdryTwice
  | dblTwice

def updFace (fs : Nat → Option FACE) (k : Nat) (v : Option FACE) :
    Nat → Option FACE :=
  fun x => if x = k then v else fs x

/-- One loop body.  An internal body stores its record and marks the face
visited.  A surface body on a visited face throws if the face is at the
boundary, otherwise fills in whichever of `leftCell`/`rightCell` is still 0
with the current cell's index (`it.fr.rightCell`) and throws if neither is;
on an unvisited face it stores the first-visit record. -/
def glueStep (fs : Nat → Option FACE) (it : GlueItem) :
    Except GlueErr (Nat → Option FACE) :=
  if it.surfCheck then
    match fs it.key with
    | some old =>
      if old.atBdry then .error .bdryTwice
      else if old.leftCell = 0 then
        .ok (updFace fs it.key (some ⟨old.atBdry, old.quad, old.includedNode,
          it.fr.rightCell, old.rightCell⟩))
      else if old.rightCell = 0 then
        .ok (updFace fs it.key (some ⟨old.atBdry, old.quad, old.includedNode,
          old.leftCell, it.fr.rightCell⟩))
      else .error .dblTwice
    | none => .ok (updFace fs it.key (some it.fr))
  else .ok (updFace fs it.key (some it.fr))

def glueFold : (Nat → Option FACE) → List GlueItem →
    Except GlueErr (Nat → Option FACE)
  | fs, [] => .ok fs
  | fs, it :: its =>
    match glueStep fs it with
    | .error e => .error e
    | .ok fs2 => glueFold fs2 its

/-- All first-visit records of a list of items stored unconditionally. -/
def applyItems (fs : Nat → Option FACE) (its : List GlueItem) :
    Nat → Option FACE :=
  its.foldl (fun f it => updFace f it.key (some it.fr)) fs

/-- The 1-based index interval `[a, b]` as a list, in increasing order. -/
def seg (a b : Nat) : List Nat := (List.range (b + 1 - a)).map (fun m => m + a)

/-- glue.cc 122-147, internal I direction: `k` then `j` then `i` from 2,
face slot 1, nodes 1,5,8,4, left cell `(i-1,j,k)`, right cell `(i,j,k)`. -/
def itemsInternalI (cs : Nat → Nat → Nat → Nat)
    (ns fseq : Nat → Nat → Nat → Nat → Nat) (b : Block3D) : List GlueItem :=
  (seg 1 (b.nK - 1)).flatMap fun k =>
    (seg 1 (b.nJ - 1)).flatMap fun j =>
      (seg 2 (b.nI - 1)).map fun i =>
        ⟨fseq i j k 1,
          ⟨false, true, [ns i j k 1, ns i j k 5, ns i j k 8, ns i j k 4],
            cs (i - 1) j k, cs i j k⟩,
          false⟩

/-- glue.cc 149-174, internal J direction: `k` then `i` then `j` from 2,
face slot 3, nodes 6,5,1,2, left cell `(i,j-1,k)`. -/
def itemsInternalJ (cs : Nat → Nat → Nat → Nat)
    (ns fseq : Nat → Nat → Nat → Nat → Nat) (b : Block3D) : List GlueItem :=
  (seg 1 (b.nK - 1)).flatMap fun k =>
    (seg 1 (b.nI - 1)).flatMap fun i =>
      (seg 2 (b.nJ - 1)).map fun j =>
        ⟨fseq i j k 3,
          ⟨false, true, [ns i j k 6, ns i j k 5, ns i j k 1, ns i j k 2],
            cs i (j - 1) k, cs i j k⟩,
          false⟩

/-- glue.cc 176-201, internal K direction: `i` then `j` then `k` from 2,
face slot 5, nodes 4,3,2,1, left cell `(i,j,k-1)`. -/
def itemsInternalK (cs : Nat → Nat → Nat → Nat)
    (ns fseq : Nat → Nat → Nat → Nat → Nat) (b : Block3D) : List GlueItem :=
  (seg 1 (b.nI - 1)).flatMap fun i =>
    (seg 1 (b.nJ - 1)).flatMap fun j =>
      (seg 2 (b.nK - 1)).map fun k =>
        ⟨fseq i j k 5,
          ⟨false, true, [ns i j k 4, ns i j k 3, ns i j k 2, ns i j k 1],
            cs i j (k - 1), cs i j k⟩,
          false⟩

/-- glue.cc 203-250, I-MIN surface: cell `(1,j,k)`, face slot 1, nodes
1,5,8,4, `atBdry = !neighbourSurf` of surface 1, left cell 0. -/
def itemsIMin (cs : Nat → Nat → Nat → Nat)
    (ns fseq : Nat → Nat → Nat → Nat → Nat) (b : Block3D)
    (shared : Nat → Bool) : List GlueItem :=
  (seg 1 (b.nK - 1)).flatMap fun k =>
    (seg 1 (b.nJ - 1)).map fun j =>
      ⟨fseq 1 j k 1,
        ⟨!shared 1, true,
          [ns 1 j k 1, ns 1 j k 5, ns 1 j k 8, ns 1 j k 4], 0, cs 1 j k⟩,
        true⟩

/-- glue.cc 252-299, I-MAX surface: cell `(nI-1,j,k)`, face slot 2, nodes
2,3,7,6. -/
def itemsIMax (cs : Nat → Nat → Nat → Nat)
    (ns fseq : Nat → Nat → Nat → Nat → Nat) (b : Block3D)
    (shared : Nat → Bool) : List GlueItem :=
  (seg 1 (b.nK - 1)).flatMap fun k =>
    (seg 1 (b.nJ - 1)).map fun j =>
      ⟨fseq (b.nI - 1) j k 2,
        ⟨!shared 2, true,
          [ns (b.nI - 1) j k 2, ns (b.nI - 1) j k 3, ns (b.nI - 1) j k 7,
            ns (b.nI - 1) j k 6], 0, cs (b.nI - 1) j k⟩,
        true⟩

/-- glue.cc 301-348, J-MIN surface: cell `(i,1,k)`, face slot 3, nodes
6,5,1,2. -/
def itemsJMin (cs : Nat → Nat → Nat → Nat)
    (ns fseq : Nat → Nat → Nat → Nat → Nat) (b : Block3D)
    (shared : Nat → Bool) : List GlueItem :=
  (seg 1 (b.nK - 1)).flatMap fun k =>
    (seg 1 (b.nI - 1)).map fun i =>
      ⟨fseq i 1 k 3,
        ⟨!shared 3, true,
          [ns i 1 k 6, ns i 1 k 5, ns i 1 k 1, ns i 1 k 2], 0, cs i 1 k⟩,
        true⟩

/-- glue.cc 350-397, J-MAX surface: cell `(i,nJ-1,k)`, face slot 4, nodes
3,4,8,7. -/
def itemsJMax (cs : Nat → Nat → Nat → Nat)
    (ns fseq : Nat → Nat → Nat → Nat → Nat) (b : Block3D)
    (shared : Nat → Bool) : List GlueItem :=
  (seg 1 (b.nK - 1)).flatMap fun k =>
    (seg 1 (b.nI - 1)).map fun i =>
      ⟨fseq i (b.nJ - 1) k 4,
        ⟨!shared 4, true,
          [ns i (b.nJ - 1) k 3, ns i (b.nJ - 1) k 4, ns i (b.nJ - 1) k 8,
            ns i (b.nJ - 1) k 7], 0, cs i (b.nJ - 1) k⟩,
        true⟩

/-- glue.cc 399-446, K-MIN surface: cell `(i,j,1)`, face slot 5, nodes
4,3,2,1. -/
def itemsKMin (cs : Nat → Nat → Nat → Nat)
    (ns fseq : Nat → Nat → Nat → Nat → Nat) (b : Block3D)
    (shared : Nat → Bool) : List GlueItem :=
  (seg 1 (b.nI - 1)).flatMap fun i =>
    (seg 1 (b.nJ - 1)).map fun j =>
      ⟨fseq i j 1 5,
        ⟨!shared 5, true,
          [ns i j 1 4, ns i j 1 3, ns i j 1 2, ns i j 1 1], 0, cs i j 1⟩,
        true⟩

/-- glue.cc 448-495, K-MAX surface: cell `(i,j,nK-1)`, face slot 6, nodes
8,5,6,7. -/
def itemsKMax (cs : Nat → Nat → Nat → Nat)
    (ns fseq : Nat → Nat → Nat → Nat → Nat) (b : Block3D)
    (shared : Nat → Bool) : List GlueItem :=
  (seg 1 (b.nI - 1)).flatMap fun i =>
    (seg 1 (b.nJ - 1)).map fun j =>
      ⟨fseq i j (b.nK - 1) 6,
        ⟨!shared 6, true,
          [ns i j (b.nK - 1) 8, ns i j (b.nK - 1) 5, ns i j (b.nK - 1) 6,
            ns i j (b.nK - 1) 7], 0, cs i j (b.nK - 1)⟩,
        true⟩

/-- The nine loops of one block of the face-copying section, in source
order. -/
def glueItems (cs : Nat → Nat → Nat → Nat)
    (ns fseq : Nat → Nat → Nat → Nat → Nat) (b : Block3D)
    (shared : Nat → Bool) : List GlueItem :=
  itemsInternalI cs ns fseq b ++ itemsInternalJ cs ns fseq b
    ++ itemsInternalK cs ns fseq b
    ++ itemsIMin cs ns fseq b shared ++ itemsIMax cs ns fseq b shared
    ++ itemsJMin cs ns fseq b shared ++ itemsJMax cs ns fseq b shared
    ++ itemsKMin cs ns fseq b shared ++ itemsKMax cs ns fseq b shared

/-- The face-copying pass for one block, starting from the all-unvisited
store. -/
def glueFaces (cs : Nat → Nat → Nat → Nat)
    (ns fseq : Nat → Nat → Nat → Nat → Nat) (b : Block3D)
    (shared : Nat → Bool) : Except GlueErr (Nat → Option FACE) :=
  glueFold (fun _ => none) (glueItems cs ns fseq b shared)

/-- A concrete cell-index assignment for instantiating the assembly. -/
def wcs : Nat → Nat → Nat → Nat := fun i j k => i + 4 * j + 16 * k

/-- A concrete (injective) per-cell sequence assignment. -/
def wns : Nat → Nat → Nat → Nat → Nat := fun i j k r => i + 4 * j + 16 * k + 64 * r

theorem W_eq : W = 18446744073709551616 := by norm_num [W]

theorem wadd_lt (a b : Nat) : wadd a b < W := Nat.mod_lt _ (by norm_num [W])

theorem wsub_lt (a b : Nat) : wsub a b < W := Nat.mod_lt _ (by norm_num [W])

theorem wsub_wadd_one (x : Nat) : wsub (wadd x 1) 1 = x % W := by
  simp only [wadd, wsub, W]
  norm_num
  omega

/-- `RANGE::face_num` computes `(e1 - s1) * (e2 - s2)` in `size_t`. -/
theorem RANGE.face_num_eq (r : RANGE) :
    r.face_num = wsub r.E1 r.S1 * wsub r.E2 r.S2 % W := by
  unfold RANGE.face_num RANGE.pri_node_num RANGE.sec_node_num
  rw [wsub_wadd_one, wsub_wadd_one]
  have h1 : wsub r.E1 r.S1 % W = wsub r.E1 r.S1 :=
    Nat.mod_eq_of_lt (wsub_lt _ _)
  have h2 : wsub r.E2 r.S2 % W = wsub r.E2 r.S2 :=
    Nat.mod_eq_of_lt (wsub_lt _ _)
  rw [h1, h2]

/-- C4: For every model, `Mapping3D::nFace()` returns the sum over all blocks
of the per-block quad-face count `(nI-1)*nJ*nK + nI*(nJ-1)*nK + nI*nJ*(nK-1)`
minus, for every `ONE_TO_ONE` entry, the quantity `(e1-s1)*(e2-s2)` computed
from that entry's first range, all arithmetic over unsigned machine integers. -/
theorem C4_nFace_formula (blks : List Block3D) (es : List ENTRY) :
    nFace blks es = nFaceClaim blks es := by
  unfold nFace nFaceClaim
  have hb :
      (blks.foldl (fun ret b => wadd ret b.face_num) 0) =
      (blks.foldl
        (fun ret b =>
          wadd ret ((wsub b.nI 1 * b.nJ * b.nK + b.nI * wsub b.nJ 1 * b.nK
            + b.nI * b.nJ * wsub b.nK 1) % W))
        0) := by
    apply List.foldl_ext
    intro a b _
    rfl
  rw [hb]
  apply List.foldl_ext
  intro a e _
  by_cases h : e.type = BC.ONE_TO_ONE
  · simp [h, RANGE.face_num_eq]
  · simp [h]

/-- C8: Every constructed `Block3D` carries the canonical surface-edge wiring:
surface 1 holds edges (5,9,8,12), surface 2 holds (6,11,7,10), surface 3 holds
(1,10,4,9), surface 4 holds (2,12,3,11), surface 5 holds (1,5,2,6) and
surface 6 holds (3,8,4,7), in that order; and each edge's two `dependentSurf`
pointers are exactly the two surfaces whose `includedEdge` list contains that
edge.  No later phase rewires these arrays. -/
theorem C8_surface_edge_wiring :
    (includedEdge 1 = [5, 9, 8, 12] ∧ includedEdge 2 = [6, 11, 7, 10] ∧
     includedEdge 3 = [1, 10, 4, 9] ∧ includedEdge 4 = [2, 12, 3, 11] ∧
     includedEdge 5 = [1, 5, 2, 6] ∧ includedEdge 6 = [3, 8, 4, 7]) ∧
    (∀ e ∈ List.range' 1 12,
      (dependentSurf e).length = 2 ∧ (dependentSurf e).Nodup ∧
      (∀ s ∈ List.range' 1 6, s ∈ dependentSurf e ↔ e ∈ includedEdge s)) := by
  decide

theorem wsub_small (a b : Nat) (ha : a < W) (hb : b ≤ a) : wsub a b = a - b := by
  simp only [wsub, W] at *
  norm_num
  omega

theorem map_sub_add_range' (c : Nat) :
    ∀ n, (List.range' 1 n).map (fun i => i - 1 + c) = List.range' c n := by
  intro n
  induction n with
  | zero => simp
  | succ m ih =>
    rw [List.range'_concat, List.range'_concat, List.map_append, ih]
    simp [Nat.add_comm]

theorem flatMap_range'_chunks (w a : Nat) :
    ∀ m, ((List.range' 1 m).flatMap fun j => List.range' (a + w * (j - 1)) w)
      = List.range' a (w * m) := by
  intro m
  induction m with
  | zero => simp
  | succ n ih =>
    rw [List.range'_concat, List.flatMap_append, ih]
    simp only [List.flatMap_cons, List.flatMap_nil, List.append_nil]
    have h1 : 1 + 1 * n - 1 = n := by omega
    rw [h1]
    have h2 := List.range'_append a (w * n) w 1
    simp only [Nat.one_mul] at h2
    rw [h2]
    congr 1
    ring

theorem flatMap_range'_chunks0 (w : Nat) (m : Nat) :
    ((List.range' 1 m).flatMap fun j => List.range' (w * (j - 1)) w)
      = List.range' 0 (w * m) := by
  have h := flatMap_range'_chunks w 0 m
  simp only [Nat.zero_add] at h
  exact h

theorem cellVisit_flat (nI nJ nK : Nat) :
    (cellVisit nI nJ nK).map (fun c => flat nI nJ c.1 c.2.1 c.2.2)
      = List.range ((nI - 1) * (nJ - 1) * (nK - 1)) := by
  unfold cellVisit
  rw [List.map_flatMap]
  have hj : ∀ k j,
      (List.map (fun c => flat nI nJ c.1 c.2.1 c.2.2)
        ((List.range' 1 (nI - 1)).map fun i => (i, j, k)))
      = List.range' ((nI - 1) * (nJ - 1) * (k - 1) + (nI - 1) * (j - 1))
          (nI - 1) := by
    intro k j
    rw [List.map_map]
    have he : ((fun c : Nat × Nat × Nat => flat nI nJ c.1 c.2.1 c.2.2) ∘
          fun i => (i, j, k))
        = fun i => i - 1 + (nI - 1) * ((j - 1) + (nJ - 1) * (k - 1)) := by
      funext i
      simp [flat, Function.comp]
    rw [he, map_sub_add_range']
    congr 1
    ring
  simp only [List.map_flatMap, hj, flatMap_range'_chunks, flatMap_range'_chunks0]
  rw [List.range_eq_range']

theorem foldl_setRun (p : Nat) :
    ∀ (n s : Nat) (ac : CellStore × Nat),
      (((List.range' s n).foldl
          (fun ac t => (updStore ac.1 p t ((ac.2 + 1) % W), ac.2 + 1)) ac).2
        = ac.2 + n) ∧
      ∀ q t,
        ((List.range' s n).foldl
            (fun ac t => (updStore ac.1 p t ((ac.2 + 1) % W), ac.2 + 1)) ac).1 q t
          = if q = p ∧ s ≤ t ∧ t < s + n then (ac.2 + (t - s) + 1) % W
            else ac.1 q t := by
  intro n
  induction n with
  | zero =>
    intro s ac
    constructor
    · rfl
    · intro q t
      have h : ¬(q = p ∧ s ≤ t ∧ t < s + 0) := by omega
      rw [if_neg h]
      rfl
  | succ m ih =>
    intro s ac
    rw [List.range'_succ]
    simp only [List.foldl_cons]
    obtain ⟨ih1, ih2⟩ :=
      ih (s + 1) (updStore ac.1 p s ((ac.2 + 1) % W), ac.2 + 1)
    constructor
    · rw [ih1]
      omega
    · intro q t
      rw [ih2 q t]
      by_cases h1 : q = p ∧ s + 1 ≤ t ∧ t < s + 1 + m
      · have h2 : q = p ∧ s ≤ t ∧ t < s + (m + 1) := by omega
        rw [if_pos h1, if_pos h2]
        congr 1
        omega
      · rw [if_neg h1]
        show updStore ac.1 p s ((ac.2 + 1) % W) q t = _
        unfold updStore
        by_cases h3 : q = p ∧ t = s
        · have h4 : q = p ∧ s ≤ t ∧ t < s + (m + 1) := by omega
          rw [if_pos h3, if_pos h4]
          congr 1
          omega
        · have h5 : ¬(q = p ∧ s ≤ t ∧ t < s + (m + 1)) := by omega
          rw [if_neg h3, if_neg h5]

theorem sweepBlock_spec (p : Nat) (b : Block3D) (ac : CellStore × Nat) :
    ((sweepBlock p b ac).2 = ac.2 + (b.nI - 1) * (b.nJ - 1) * (b.nK - 1)) ∧
    ∀ q t, (sweepBlock p b ac).1 q t
      = if q = p ∧ t < (b.nI - 1) * (b.nJ - 1) * (b.nK - 1)
        then (ac.2 + t + 1) % W
        else ac.1 q t := by
  have key : sweepBlock p b ac
      = (List.range' 0 ((b.nI - 1) * (b.nJ - 1) * (b.nK - 1))).foldl
          (fun ac t => (updStore ac.1 p t ((ac.2 + 1) % W), ac.2 + 1)) ac := by
    unfold sweepBlock
    rw [← List.range_eq_range', ← cellVisit_flat b.nI b.nJ b.nK,
      List.foldl_map]
    rfl
  rw [key]
  obtain ⟨h1, h2⟩ := foldl_setRun p ((b.nI - 1) * (b.nJ - 1) * (b.nK - 1)) 0 ac
  refine ⟨h1, fun q t => ?_⟩
  rw [h2 q t]
  by_cases h : q = p ∧ t < (b.nI - 1) * (b.nJ - 1) * (b.nK - 1)
  · have h' : q = p ∧ 0 ≤ t ∧ t < 0 + (b.nI - 1) * (b.nJ - 1) * (b.nK - 1) := by
      omega
    rw [if_pos h', if_pos h]
    norm_num
  · have h' : ¬(q = p ∧ 0 ≤ t ∧ t < 0 + (b.nI - 1) * (b.nJ - 1) * (b.nK - 1)) := by
      omega
    rw [if_neg h', if_neg h]

theorem cellSweepAux_spec :
    ∀ (blks : List Block3D) (p : Nat) (ac : CellStore × Nat),
      ((cellSweepAux p blks ac).2 = ac.2 + nCellExact blks) ∧
      (∀ q t, q < p → (cellSweepAux p blks ac).1 q t = ac.1 q t) ∧
      (∀ idx b t, blks.get? idx = some b →
        t < (b.nI - 1) * (b.nJ - 1) * (b.nK - 1) →
        (cellSweepAux p blks ac).1 (p + idx) t
          = (ac.2 + nCellExact (blks.take idx) + t + 1) % W) := by
  intro blks
  induction blks with
  | nil =>
    intro p ac
    refine ⟨by simp [cellSweepAux, nCellExact], fun q t _ => rfl, ?_⟩
    intro idx b t hget
    simp at hget
  | cons b rest ih =>
    intro p ac
    simp only [cellSweepAux]
    obtain ⟨ihc, ihlow, ihidx⟩ := ih (p + 1) (sweepBlock p b ac)
    obtain ⟨sc, sst⟩ := sweepBlock_spec p b ac
    refine ⟨?_, ?_, ?_⟩
    · rw [ihc, sc]
      simp only [nCellExact, List.map_cons, List.sum_cons]
      omega
    · intro q t hq
      rw [ihlow q t (by omega), sst q t]
      rw [if_neg]
      omega
    · intro idx bb t hget ht
      cases idx with
      | zero =>
        have hb : b = bb := by simpa using hget
        subst hb
        have hp0 : p + 0 = p := by omega
        rw [hp0, ihlow p t (by omega), sst p t]
        rw [if_pos ⟨rfl, ht⟩]
        simp [nCellExact]
      | succ m =>
        have hget' : rest.get? m = some bb := by simpa using hget
        have hpos : p + (m + 1) = (p + 1) + m := by omega
        rw [hpos, ihidx m bb t hget' ht, sc]
        congr 1
        simp only [nCellExact, List.take_succ_cons, List.map_cons, List.sum_cons]
        omega

theorem cell_num_exact (b : Block3D) (h : dimOK b) :
    b.cell_num = (b.nI - 1) * (b.nJ - 1) * (b.nK - 1) % W := by
  obtain ⟨h1, h2, h3, h4, h5, h6⟩ := h
  unfold Block3D.cell_num
  rw [wsub_small _ _ h2 (by omega), wsub_small _ _ h4 (by omega),
    wsub_small _ _ h6 (by omega)]

theorem foldl_wadd_cell :
    ∀ (blks : List Block3D), (∀ b ∈ blks, dimOK b) → ∀ a, a < W →
      blks.foldl (fun ret b => wadd ret b.cell_num) a
        = (a + nCellExact blks) % W := by
  intro blks
  induction blks with
  | nil =>
    intro _ a ha
    simp [nCellExact, Nat.mod_eq_of_lt ha]
  | cons b rest ih =>
    intro h a ha
    simp only [List.foldl_cons]
    rw [ih (fun x hx => h x (List.mem_cons_of_mem _ hx)) _ (wadd_lt a b.cell_num)]
    rw [cell_num_exact b (h b (List.mem_cons_self b rest))]
    simp only [nCellExact, List.map_cons, List.sum_cons, wadd, W_eq]
    generalize (b.nI - 1) * (b.nJ - 1) * (b.nK - 1) = cb
    generalize (List.map (fun b => (b.nI - 1) * (b.nJ - 1) * (b.nK - 1)) rest).sum = R
    omega

theorem nCell_eq_exact (blks : List Block3D) (h : ∀ b ∈ blks, dimOK b) :
    nCell blks = nCellExact blks % W := by
  have h0 := foldl_wadd_cell blks h 0 (by norm_num [W])
  simpa [nCell] using h0

theorem flat_lt_cells (nI nJ nK i j k : Nat)
    (hi1 : 1 ≤ i) (hi2 : i ≤ nI - 1) (hj1 : 1 ≤ j) (hj2 : j ≤ nJ - 1)
    (hk1 : 1 ≤ k) (hk2 : k ≤ nK - 1) :
    flat nI nJ i j k < (nI - 1) * (nJ - 1) * (nK - 1) := by
  unfold flat
  obtain ⟨a, ha⟩ : ∃ a, nI - 1 = a + 1 := ⟨nI - 2, by omega⟩
  obtain ⟨v, hv⟩ : ∃ v, nJ - 1 = v + 1 := ⟨nJ - 2, by omega⟩
  obtain ⟨c, hc⟩ : ∃ c, nK - 1 = c + 1 := ⟨nK - 2, by omega⟩
  rw [ha, hv, hc]
  have h1 : i - 1 ≤ a := by omega
  have h2 : j - 1 ≤ v := by omega
  have h3 : k - 1 ≤ c := by omega
  have step : (i - 1) + (a + 1) * ((j - 1) + (v + 1) * (k - 1))
      ≤ a + (a + 1) * (v + (v + 1) * c) := by
    apply Nat.add_le_add h1
    apply Nat.mul_le_mul_left
    exact Nat.add_le_add h2 (Nat.mul_le_mul_left _ h3)
  have expand : (a + 1) * (v + 1) * (c + 1)
      = a + (a + 1) * (v + (v + 1) * c) + 1 := by ring
  omega

theorem nCellExact_take_le (blks : List Block3D) (bpos : Nat) (b : Block3D)
    (hb : blks.get? bpos = some b) :
    nCellExact (blks.take bpos) + (b.nI - 1) * (b.nJ - 1) * (b.nK - 1)
      ≤ nCellExact blks := by
  have hsplit : nCellExact blks
      = nCellExact (blks.take (bpos + 1)) + nCellExact (blks.drop (bpos + 1)) := by
    unfold nCellExact
    rw [← List.sum_append, ← List.map_append, List.take_append_drop]
  have hb' : blks[bpos]? = some b := by
    simpa [List.get?_eq_getElem?] using hb
  have htake : nCellExact (blks.take (bpos + 1))
      = nCellExact (blks.take bpos) + (b.nI - 1) * (b.nJ - 1) * (b.nK - 1) := by
    rw [List.take_succ, hb']
    unfold nCellExact
    simp
  omega

/-- C3: The cell sweep of global numbering assigns dense 1-based global cell
ids starting at 1, processing blocks in increasing block-id order and, within
each block, visiting cells `(i,j,k)` with `k` outermost, then `j`, then `i`
innermost; hence the cell `(i,j,k)` of the block at position `bpos` receives id
equal to the total cell count of the preceding blocks plus
`(i-1) + (nI-1)*((j-1) + (nJ-1)*(k-1)) + 1`, and the final value of the
counter (the last id assigned) equals the total cell count `nCell()`. -/
theorem C3_cell_sweep_ids (blks : List Block3D) (bpos : Nat) (b : Block3D)
    (i j k : Nat) (hb : blks.get? bpos = some b)
    (hi : 1 ≤ i ∧ i ≤ b.nI - 1) (hj : 1 ≤ j ∧ j ≤ b.nJ - 1)
    (hk : 1 ≤ k ∧ k ≤ b.nK - 1)
    (hdims : ∀ bl ∈ blks, dimOK bl)
    (hfit : nCellExact blks < W) :
    (cellSweep blks).1 bpos (flat b.nI b.nJ i j k)
      = nCellExact (blks.take bpos)
        + ((i - 1) + (b.nI - 1) * ((j - 1) + (b.nJ - 1) * (k - 1))) + 1
    ∧ (cellSweep blks).2 = nCell blks := by
  obtain ⟨_, _, hidx⟩ := cellSweepAux_spec blks 0 (fun _ _ => 0, 0)
  obtain ⟨hcnt, _, _⟩ := cellSweepAux_spec blks 0 (fun _ _ => 0, 0)
  have hflatlt : flat b.nI b.nJ i j k < (b.nI - 1) * (b.nJ - 1) * (b.nK - 1) :=
    flat_lt_cells b.nI b.nJ b.nK i j k hi.1 hi.2 hj.1 hj.2 hk.1 hk.2
  constructor
  · have h := hidx bpos b (flat b.nI b.nJ i j k) hb hflatlt
    have hle := nCellExact_take_le blks bpos b hb
    have hsmall : nCellExact (blks.take bpos) + flat b.nI b.nJ i j k + 1 < W := by
      omega
    calc (cellSweep blks).1 bpos (flat b.nI b.nJ i j k)
        = (0 + nCellExact (blks.take bpos) + flat b.nI b.nJ i j k + 1) % W := by
          simpa [cellSweep] using h
      _ = nCellExact (blks.take bpos) + flat b.nI b.nJ i j k + 1 := by
          rw [Nat.zero_add]
          exact Nat.mod_eq_of_lt hsmall
      _ = nCellExact (blks.take bpos)
            + ((i - 1) + (b.nI - 1) * ((j - 1) + (b.nJ - 1) * (k - 1))) + 1 := by
          rfl
  · have : (cellSweep blks).2 = nCellExact blks := by
      have := hcnt
      simpa [cellSweep] using this
    rw [this, nCell_eq_exact blks hdims, Nat.mod_eq_of_lt hfit]

/-- C3 witness: concrete instantiation on two blocks (3x2x2 and 2x2x2); the
single cell of the second block receives id 3 = 2 + 0 + 1, and the final
counter value is `nCell` = 3. -/
theorem C3_cell_sweep_ids_witness :
    (cellSweep [⟨3, 2, 2⟩, ⟨2, 2, 2⟩]).1 1 (flat 2 2 1 1 1)
      = nCellExact (List.take 1 [⟨3, 2, 2⟩, ⟨2, 2, 2⟩])
        + ((1 - 1) + (2 - 1) * ((1 - 1) + (2 - 1) * (1 - 1))) + 1
    ∧ (cellSweep [⟨3, 2, 2⟩, ⟨2, 2, 2⟩]).2 = nCell [⟨3, 2, 2⟩, ⟨2, 2, 2⟩] :=
  C3_cell_sweep_ids [⟨3, 2, 2⟩, ⟨2, 2, 2⟩] 1 ⟨2, 2, 2⟩ 1 1 1 rfl
    (by decide) (by decide) (by decide) (by decide) (by decide)

/-- C1 (evaluation at the failing input): on the model of a single 2x2x2 block
with six WALL boundary entries, `numbering()` raises `std::length_error` in the
face phase - the face-indexing loop is an empty `TODO` stub, so its counter
stays 0 while `nFace()` = 12 - and consequently no quad face ever receives a
global id, contradicting the claim that every face is numbered. -/
theorem C1_face_numbering_is_absent :
    (numbering [⟨2, 2, 2⟩]
      [ENTRY.single BC.WALL ⟨1, 1, 1, 2, 1, 2⟩,
       ENTRY.single BC.WALL ⟨1, 2, 1, 2, 1, 2⟩,
       ENTRY.single BC.WALL ⟨1, 3, 1, 2, 1, 2⟩,
       ENTRY.single BC.WALL ⟨1, 4, 1, 2, 1, 2⟩,
       ENTRY.single BC.WALL ⟨1, 5, 1, 2, 1, 2⟩,
       ENTRY.single BC.WALL ⟨1, 6, 1, 2, 1, 2⟩]).2
      = some NumErr.faceMismatch
    ∧ nFace [⟨2, 2, 2⟩]
      [ENTRY.single BC.WALL ⟨1, 1, 1, 2, 1, 2⟩,
       ENTRY.single BC.WALL ⟨1, 2, 1, 2, 1, 2⟩,
       ENTRY.single BC.WALL ⟨1, 3, 1, 2, 1, 2⟩,
       ENTRY.single BC.WALL ⟨1, 4, 1, 2, 1, 2⟩,
       ENTRY.single BC.WALL ⟨1, 5, 1, 2, 1, 2⟩,
       ENTRY.single BC.WALL ⟨1, 6, 1, 2, 1, 2⟩] = 12 := by
  constructor
  · rfl
  · rfl

/-- C2 counterexample: a model with one block (2x2x2, all dimensions at least
2) and two ONE_TO_ONE entries whose first ranges account for 6 quad faces each
makes `nFace()` = 12 - 6 - 6 = 0, so the face check `cnt != nFace()` passes
with the counter still 0 and `numbering()` returns normally - refuting the
claim that it always throws for every model containing at least one block. -/
theorem C2_counterexample_numbering_returns :
    nFace [⟨2, 2, 2⟩]
      [ENTRY.double ⟨1, 1, 1, 3, 1, 4⟩ ⟨1, 2, 1, 3, 1, 4⟩ false,
       ENTRY.double ⟨1, 3, 1, 3, 1, 4⟩ ⟨1, 4, 1, 3, 1, 4⟩ false] = 0
    ∧ (numbering [⟨2, 2, 2⟩]
      [ENTRY.double ⟨1, 1, 1, 3, 1, 4⟩ ⟨1, 2, 1, 3, 1, 4⟩ false,
       ENTRY.double ⟨1, 3, 1, 3, 1, 4⟩ ⟨1, 4, 1, 3, 1, 4⟩ false]).2 = none := by
  constructor
  · rfl
  · rfl

theorem arrIdx_small (N i : Nat) (h1 : 1 ≤ i) (h2 : i ≤ N) (h3 : i < 2 ^ 63) :
    arrIdx N i = some i := by
  unfold arrIdx toInt64
  have hm : i % W = i := Nat.mod_eq_of_lt (by simp only [W_eq] at *; omega)
  rw [hm]
  have hlt : i < 2 ^ 63 := h3
  rw [if_pos hlt]
  have hc : 1 ≤ (i : Int) ∧ (i : Int) ≤ (N : Int) := by
    constructor <;> exact_mod_cast (by omega : _)
  rw [if_pos hc]
  simp

theorem surfIdx_small (f : Nat) (h1 : 1 ≤ f) (h2 : f ≤ 6) :
    surfIdx f = some f := by
  unfold surfIdx toInt32
  have hm : f % 2 ^ 32 = f := Nat.mod_eq_of_lt (by omega)
  rw [hm]
  have hlt : f < 2 ^ 31 := by omega
  rw [if_pos hlt]
  have hc : 1 ≤ (f : Int) ∧ (f : Int) ≤ 6 := by
    constructor <;> exact_mod_cast (by omega : _)
  rw [if_pos hc]
  simp

theorem arrIdx_eq_some (slots : List (Option Block3D)) (r : RANGE)
    (h : rangeRefOK slots r) : arrIdx slots.length r.B = some r.B := by
  obtain ⟨a1, a2, a3, _, _, _⟩ := h
  exact arrIdx_small slots.length r.B a1 a2 a3

theorem surfIdx_eq_some (slots : List (Option Block3D)) (r : RANGE)
    (h : rangeRefOK slots r) : surfIdx r.F = some r.F := by
  obtain ⟨_, _, _, a4, a5, _⟩ := h
  exact surfIdx_small r.F a4 a5

theorem connectOne_ok (slots : List (Option Block3D)) (m : NeighMap)
    (r1 r2 : RANGE) (swp : Bool)
    (hr1 : rangeRefOK slots r1) (hr2 : rangeRefOK slots r2) :
    connectOne slots m (ENTRY.double r1 r2 swp)
      = .ok (updNeigh (updNeigh m (r1.B, r1.F) (r2.B, r2.F))
          (r2.B, r2.F) (r1.B, r1.F)) := by
  obtain ⟨blk1, hblk1⟩ :=
    Option.isSome_iff_exists.mp hr1.2.2.2.2.2
  obtain ⟨blk2, hblk2⟩ :=
    Option.isSome_iff_exists.mp hr2.2.2.2.2.2
  unfold connectOne
  rw [if_pos (show (ENTRY.double r1 r2 swp).type = BC.ONE_TO_ONE from rfl)]
  simp only [ENTRY.rg1, ENTRY.rg2,
    arrIdx_eq_some slots r1 hr1, arrIdx_eq_some slots r2 hr2,
    hblk1, hblk2,
    surfIdx_eq_some slots r1 hr1, surfIdx_eq_some slots r2 hr2]

theorem connFold_cons (slots : List (Option Block3D)) (m : NeighMap)
    (e : ENTRY) (rest : List ENTRY) :
    connFold slots m (e :: rest)
      = match connectOne slots m e with
        | .error err => .error err
        | .ok m2 => connFold slots m2 rest := rfl

theorem connectOne_skip (slots : List (Option Block3D)) (m : NeighMap)
    (bc : Nat) (r : RANGE) (hbc : bc ≠ BC.ONE_TO_ONE) :
    connectOne slots m (ENTRY.single bc r) = .ok m := by
  unfold connectOne
  rw [if_neg (by simpa [ENTRY.type] using hbc)]

theorem connFold_spec (slots : List (Option Block3D)) :
    ∀ (es : List ENTRY) (m0 : NeighMap),
      (∀ bc r, ENTRY.single bc r ∈ es → bc ≠ BC.ONE_TO_ONE) →
      otoRefsOK slots es → (otoKeys es).Nodup →
      ∃ m, connFold slots m0 es = .ok m ∧
        (∀ x, x ∉ otoKeys es → m x = m0 x) ∧
        (∀ pr ∈ otoPairs es, m pr.1 = some pr.2 ∧ m pr.2 = some pr.1) := by
  intro es
  induction es with
  | nil =>
    intro m0 _ _ _
    exact ⟨m0, rfl, fun x _ => rfl, fun pr hpr => by simp [otoPairs] at hpr⟩
  | cons e rest ih =>
    intro m0 hwf hrefs hnd
    cases e with
    | single bc r =>
      have hbc : bc ≠ BC.ONE_TO_ONE := hwf bc r (List.mem_cons_self _ _)
      have hkeys : otoKeys (ENTRY.single bc r :: rest) = otoKeys rest := by
        simp [otoKeys, otoPairs]
      have hpairs : otoPairs (ENTRY.single bc r :: rest) = otoPairs rest := by
        simp [otoPairs]
      rw [hkeys] at hnd
      obtain ⟨m, hm, hkeep, hset⟩ :=
        ih m0 (fun bc2 r2 hmem => hwf bc2 r2 (List.mem_cons_of_mem _ hmem))
          (fun x hx ht => hrefs x (List.mem_cons_of_mem _ hx) ht) hnd
      refine ⟨m, ?_, ?_, ?_⟩
      · rw [connFold_cons, connectOne_skip slots m0 bc r hbc]
        exact hm
      · rw [hkeys]
        exact hkeep
      · rw [hpairs]
        exact hset
    | double r1 r2 swp =>
      obtain ⟨hr1, hr2⟩ :=
        hrefs (ENTRY.double r1 r2 swp) (List.mem_cons_self _ _) rfl
      have hkeys : otoKeys (ENTRY.double r1 r2 swp :: rest)
          = (r1.B, r1.F) :: (r2.B, r2.F) :: otoKeys rest := by
        simp [otoKeys, otoPairs]
      have hpairs : otoPairs (ENTRY.double r1 r2 swp :: rest)
          = ((r1.B, r1.F), (r2.B, r2.F)) :: otoPairs rest := by
        simp [otoPairs]
      rw [hkeys] at hnd
      have hAB : ((r1.B, r1.F) : Nat × Nat) ≠ (r2.B, r2.F) := by
        intro hcontra
        exact (List.nodup_cons.mp hnd).1 (by rw [hcontra]; exact List.mem_cons_self _ _)
      have hAk : ((r1.B, r1.F) : Nat × Nat) ∉ otoKeys rest := by
        have := (List.nodup_cons.mp hnd).1
        intro hcontra
        exact this (List.mem_cons_of_mem _ hcontra)
      have hBk : ((r2.B, r2.F) : Nat × Nat) ∉ otoKeys rest := by
        have := (List.nodup_cons.mp (List.nodup_cons.mp hnd).2).1
        exact this
      have hndrest : (otoKeys rest).Nodup :=
        (List.nodup_cons.mp (List.nodup_cons.mp hnd).2).2
      obtain ⟨m, hm, hkeep, hset⟩ :=
        ih (updNeigh (updNeigh m0 (r1.B, r1.F) (r2.B, r2.F))
              (r2.B, r2.F) (r1.B, r1.F))
          (fun bc2 rr hmem => hwf bc2 rr (List.mem_cons_of_mem _ hmem))
          (fun x hx ht => hrefs x (List.mem_cons_of_mem _ hx) ht) hndrest
      refine ⟨m, ?_, ?_, ?_⟩
      · rw [connFold_cons, connectOne_ok slots m0 r1 r2 swp hr1 hr2]
        exact hm
      · intro x hx
        rw [hkeys] at hx
        have hx1 : x ≠ (r1.B, r1.F) := by intro hc; exact hx (by rw [hc]; exact List.mem_cons_self _ _)
        have hx2 : x ≠ (r2.B, r2.F) := by
          intro hc
          exact hx (by rw [hc]; exact List.mem_cons_of_mem _ (List.mem_cons_self _ _))
        have hx3 : x ∉ otoKeys rest := by
          intro hc
          exact hx (List.mem_cons_of_mem _ (List.mem_cons_of_mem _ hc))
        rw [hkeep x hx3]
        unfold updNeigh
        rw [if_neg hx2, if_neg hx1]
      · intro pr hpr
        rw [hpairs] at hpr
        rcases List.mem_cons.mp hpr with hhead | htail
        · subst hhead
          constructor
          · rw [hkeep _ hAk]
            unfold updNeigh
            rw [if_neg hAB, if_pos rfl]
          · rw [hkeep _ hBk]
            unfold updNeigh
            rw [if_pos rfl]
        · exact hset pr htail

/-- C5 counterexample: two `ONE_TO_ONE` entries both naming surface (1,1) of a
single 2x2x2 block.  The connectivity-establishing pass does not reject the
input - it raises no error at all - and instead the second entry silently
overwrites the first pairing: surface (1,1) ends up pointing at (1,3) while
(1,2) still points back at (1,1).  This refutes the claim that the pass
raises a DuplicateInterface error for duplicated surfaces. -/
theorem C5_counterexample_duplicate_accepted :
    (establishConn [some ⟨2, 2, 2⟩]
      [ENTRY.double ⟨1, 1, 1, 2, 1, 2⟩ ⟨1, 2, 1, 2, 1, 2⟩ false,
       ENTRY.double ⟨1, 1, 1, 2, 1, 2⟩ ⟨1, 3, 1, 2, 1, 2⟩ false]).map
        (fun m => (m (1, 1), m (1, 2), m (1, 3)))
      = .ok (some (1, 3), some (1, 1), some (1, 1)) := by
  rfl

/-- C5 (amended): the connectivity-establishing pass performs no duplicate
check - each `ONE_TO_ONE` entry unconditionally sets the two surfaces'
`neighbourSurf` pointers to each other (later entries overwriting earlier
assignments); when no surface is named twice, the pass succeeds and every
`ONE_TO_ONE` entry's two surfaces end up pointing at each other. -/
theorem C5_connectivity_mutual_pointers (slots : List (Option Block3D))
    (es : List ENTRY)
    (hwf : ∀ bc r, ENTRY.single bc r ∈ es → bc ≠ BC.ONE_TO_ONE)
    (hrefs : otoRefsOK slots es) (hnd : (otoKeys es).Nodup) :
    ∃ m, establishConn slots es = .ok m ∧
      ∀ pr ∈ otoPairs es, m pr.1 = some pr.2 ∧ m pr.2 = some pr.1 := by
  obtain ⟨m, hm, _, hset⟩ := connFold_spec slots es (fun _ => none) hwf hrefs hnd
  exact ⟨m, hm, hset⟩

/-- C5 witness: two 2x2x2 blocks glued along one interface; the hypotheses
hold and the pass pairs surface (1,2) with (2,1) mutually. -/
theorem C5_connectivity_mutual_pointers_witness :
    ∃ m, establishConn [some ⟨2, 2, 2⟩, some ⟨2, 2, 2⟩]
        [ENTRY.double ⟨1, 2, 1, 2, 1, 2⟩ ⟨2, 1, 1, 2, 1, 2⟩ false] = .ok m ∧
      ∀ pr ∈ otoPairs
          [ENTRY.double ⟨1, 2, 1, 2, 1, 2⟩ ⟨2, 1, 1, 2, 1, 2⟩ false],
        m pr.1 = some pr.2 ∧ m pr.2 = some pr.1 :=
  C5_connectivity_mutual_pointers
    [some ⟨2, 2, 2⟩, some ⟨2, 2, 2⟩]
    [ENTRY.double ⟨1, 2, 1, 2, 1, 2⟩ ⟨2, 1, 1, 2, 1, 2⟩ false]
    (by intro bc r hmem; simp at hmem)
    (by decide) (by decide)

/-- C6 counterexample: an NMF file whose `ONE_TO_ONE` entry pairs a 2x3
rectangle of quad cells (`(3-1)*(4-1)` is 6) with a 3x3 rectangle
(`(4-1)*(4-1)` is 9).  `readFromFile` accepts it - there is no area check
anywhere in the parser - refuting the claim that parsing fails with the
AreaMismatch error. -/
theorem C6_counterexample_area_mismatch_accepted :
    readFromFile
      ["2".toList, "1 2 2 2".toList, "2 2 2 2".toList,
       "ONE_TO_ONE 1 2 1 3 1 4 2 1 1 4 1 4 TRUE".toList]
      = .ok ([some ⟨2, 2, 2⟩, some ⟨2, 2, 2⟩],
          [ENTRY.double ⟨1, 2, 1, 3, 1, 4⟩ ⟨2, 1, 1, 4, 1, 4⟩ true]) := by
  rfl

/-- C7 counterexample: two dimension lines both carry block id 1, so the ids
do not form the set {1..2} - yet `readFromFile` accepts the file: the second
line silently overwrites block 1 (its dimensions become 3x3x3) and slot 2 is
left null.  This refutes the claim that such input is rejected. -/
theorem C7_counterexample_duplicate_id_accepted :
    readFromFile
      ["2".toList, "1 2 2 2".toList, "1 3 3 3".toList,
       "WALL 1 1 1 1 1 1".toList]
      = .ok ([some ⟨3, 3, 3⟩, none],
          [ENTRY.single BC.WALL ⟨1, 1, 1, 1, 1, 1⟩]) := by
  rfl

/-- C9 counterexample: a file that parses successfully to a WALL entry whose
first two fields fill their output columns completely (6 digits in a
`setw(6)` column).  `writeToFile` prints them with no separating blank, the
re-parse reads the merged token `123456654321` as a single number, and the
resulting model differs from the original - refuting the round-trip claim. -/
theorem C9_counterexample_roundtrip_fails :
    readFromFile
      ["1".toList, "1 2 2 2".toList, "WALL 123456 654321 1 1 1 1".toList]
      = .ok ([some ⟨2, 2, 2⟩],
          [ENTRY.single BC.WALL ⟨123456, 654321, 1, 1, 1, 1⟩])
    ∧ ((writeToFile [⟨2, 2, 2⟩]
          [ENTRY.single BC.WALL ⟨123456, 654321, 1, 1, 1, 1⟩]).bind readFromFile)
      = .ok ([some ⟨2, 2, 2⟩],
          [ENTRY.single BC.WALL ⟨123456654321, 1, 1, 1, 1, 0⟩])
    ∧ (ENTRY.single BC.WALL ⟨123456, 654321, 1, 1, 1, 1⟩
        ≠ ENTRY.single BC.WALL ⟨123456654321, 1, 1, 1, 1, 0⟩) := by
  exact ⟨rfl, rfl, by decide⟩

theorem liftSlots_map_some (l : List Block3D) : liftSlots (l.map some) = some l := by
  induction l with
  | nil => rfl
  | cons b rest ih =>
    simp only [List.map_cons, liftSlots, ih]

/-- C2 (amended): for every model with at least one block (dimensions at
least 2), `numbering()` assigns the cell ids of its first sweep and then
throws `std::length_error` precisely when `nFace()` is nonzero - the
face-indexing loop body is an empty `TODO` stub, so its counter never leaves
0 - and no face or node id is ever assigned (the model has no face store at
all); correspondingly the file-loading constructor returns normally exactly
for inputs whose parsed model has `nFace()` equal to 0 (which `ONE_TO_ONE`
entries can arrange by cancelling the block face count). -/
theorem C2_numbering_throws_iff_nFace (blks : List Block3D) (es : List ENTRY)
    (hne : blks ≠ []) (hdims : ∀ b ∈ blks, dimOK b) :
    ((numbering blks es).2 = some NumErr.faceMismatch ↔ nFace blks es ≠ 0)
    ∧ (numbering blks es).1 = (cellSweep blks).1
    ∧ ∀ lines, readFromFile lines = .ok (blks.map some, es) →
        ((fileCtor lines).isSome ↔ nFace blks es = 0) := by
  have hcellpass : (cellSweep blks).2 % W = nCell blks := by
    obtain ⟨hcnt, _, _⟩ := cellSweepAux_spec blks 0 (fun _ _ => 0, 0)
    have h1 : (cellSweep blks).2 = nCellExact blks := by
      simpa [cellSweep] using hcnt
    rw [h1, nCell_eq_exact blks hdims]
  have hnum : numbering blks es
      = if 0 ≠ nFace blks es
        then ((cellSweep blks).1, some NumErr.faceMismatch)
        else ((cellSweep blks).1, none) := by
    unfold numbering
    rw [if_neg (by rw [hcellpass]; exact fun h => h rfl)]
  refine ⟨?_, ?_, ?_⟩
  · rw [hnum]
    by_cases h : nFace blks es = 0
    · rw [if_neg (by omega)]
      simp [h]
    · rw [if_pos (by omega)]
      simp [h]
  · rw [hnum]
    by_cases h : 0 ≠ nFace blks es
    · rw [if_pos h]
    · rw [if_neg h]
  · intro lines hparse
    by_cases h : nFace blks es = 0
    · have h2 : (numbering blks es).2 = none := by
        rw [hnum, if_neg (by omega)]
      simp [fileCtor, hparse, liftSlots_map_some, h2, h]
    · have h2 : (numbering blks es).2 = some NumErr.faceMismatch := by
        rw [hnum, if_pos (by omega)]
      simp [fileCtor, hparse, liftSlots_map_some, h2, h]

/-- C2 witness: the amended theorem instantiated on the one-block model with
two face-count-cancelling `ONE_TO_ONE` entries. -/
theorem C2_numbering_throws_iff_nFace_witness :
    ((numbering [⟨2, 2, 2⟩]
        [ENTRY.double ⟨1, 1, 1, 3, 1, 4⟩ ⟨1, 2, 1, 3, 1, 4⟩ false,
         ENTRY.double ⟨1, 3, 1, 3, 1, 4⟩ ⟨1, 4, 1, 3, 1, 4⟩ false]).2
        = some NumErr.faceMismatch
      ↔ nFace [⟨2, 2, 2⟩]
        [ENTRY.double ⟨1, 1, 1, 3, 1, 4⟩ ⟨1, 2, 1, 3, 1, 4⟩ false,
         ENTRY.double ⟨1, 3, 1, 3, 1, 4⟩ ⟨1, 4, 1, 3, 1, 4⟩ false] ≠ 0)
    ∧ (numbering [⟨2, 2, 2⟩]
        [ENTRY.double ⟨1, 1, 1, 3, 1, 4⟩ ⟨1, 2, 1, 3, 1, 4⟩ false,
         ENTRY.double ⟨1, 3, 1, 3, 1, 4⟩ ⟨1, 4, 1, 3, 1, 4⟩ false]).1
      = (cellSweep [⟨2, 2, 2⟩]).1
    ∧ ∀ lines, readFromFile lines
        = .ok (([⟨2, 2, 2⟩] : List Block3D).map some,
          [ENTRY.double ⟨1, 1, 1, 3, 1, 4⟩ ⟨1, 2, 1, 3, 1, 4⟩ false,
           ENTRY.double ⟨1, 3, 1, 3, 1, 4⟩ ⟨1, 4, 1, 3, 1, 4⟩ false]) →
        ((fileCtor lines).isSome
          ↔ nFace [⟨2, 2, 2⟩]
            [ENTRY.double ⟨1, 1, 1, 3, 1, 4⟩ ⟨1, 2, 1, 3, 1, 4⟩ false,
             ENTRY.double ⟨1, 3, 1, 3, 1, 4⟩ ⟨1, 4, 1, 3, 1, 4⟩ false] = 0) :=
  C2_numbering_throws_iff_nFace [⟨2, 2, 2⟩]
    [ENTRY.double ⟨1, 1, 1, 3, 1, 4⟩ ⟨1, 2, 1, 3, 1, 4⟩ false,
     ENTRY.double ⟨1, 3, 1, 3, 1, 4⟩ ⟨1, 4, 1, 3, 1, 4⟩ false]
    (by decide) (by decide)

theorem natReprGo_eq :
    ∀ (fuel n : Nat), n ≤ fuel →
      natReprGo fuel n = ((Nat.digits 10 n).map digit2char).reverse := by
  intro fuel
  induction fuel with
  | zero =>
    intro n hn
    have : n = 0 := by omega
    subst this
    simp [natReprGo]
  | succ f ih =>
    intro n hn
    by_cases h0 : n = 0
    · subst h0
      simp [natReprGo]
    · rw [show natReprGo (f + 1) n
          = natReprGo f (n / 10) ++ [digit2char (n % 10)] from by
        simp [natReprGo, h0]]
      rw [ih (n / 10) (by omega)]
      rw [Nat.digits_def' (by norm_num : 1 < 10) (by omega : 0 < n)]
      simp

theorem natRepr_eq_digits (n : Nat) :
    natRepr n = if n = 0 then ['0']
      else ((Nat.digits 10 n).map digit2char).reverse := by
  unfold natRepr
  by_cases h : n = 0
  · simp [h]
  · simp [h, natReprGo_eq n n (Nat.le_refl n)]

theorem natRepr_chars (n : Nat) :
    ∀ c ∈ natRepr n, c ∈ ['0', '1', '2', '3', '4', '5', '6', '7', '8', '9'] := by
  intro c hc
  rw [natRepr_eq_digits] at hc
  by_cases h : n = 0
  · simp [h] at hc
    simp [hc]
  · simp only [h, if_neg, ite_false, List.mem_reverse, List.mem_map] at hc
    obtain ⟨d, hd, rfl⟩ := hc
    have hlt : d < 10 := Nat.digits_lt_base (by norm_num) hd
    interval_cases d <;> decide

theorem natRepr_ne_nil (n : Nat) : natRepr n ≠ [] := by
  rw [natRepr_eq_digits]
  by_cases h : n = 0
  · simp [h]
  · simp only [h, ite_false]
    intro hcontra
    have hne : Nat.digits 10 n ≠ [] := Nat.digits_ne_nil_iff_ne_zero.mpr h
    simp at hcontra
    exact hne hcontra

theorem charListProps :
    ∀ c ∈ ['0', '1', '2', '3', '4', '5', '6', '7', '8', '9'],
      c.isDigit = true ∧ notWhite c = true ∧ formalizeChar c = c ∧
        c ≠ '#' ∧ char2digit c < 10 := by
  decide

theorem natRepr_digitTok (n : Nat) : digitTok (natRepr n) = true := by
  unfold digitTok
  have h1 : (natRepr n).isEmpty = false := by
    cases hx : natRepr n with
    | nil => exact absurd hx (natRepr_ne_nil n)
    | cons a l => rfl
  rw [h1]
  simp only [Bool.not_false, Bool.true_and]
  rw [List.all_eq_true]
  intro c hc
  exact ((charListProps c (natRepr_chars n c hc)).1)

theorem natRepr_notWhite (n : Nat) : ∀ c ∈ natRepr n, notWhite c = true :=
  fun c hc => (charListProps c (natRepr_chars n c hc)).2.1

theorem natRepr_formalize (n : Nat) :
    (natRepr n).map formalizeChar = natRepr n := by
  rw [show (natRepr n).map formalizeChar = (natRepr n).map id from
    List.map_congr_left fun c hc => (charListProps c (natRepr_chars n c hc)).2.2.1]
  exact List.map_id _

theorem char2digit_digit2char (d : Nat) (h : d < 10) :
    char2digit (digit2char d) = d := by
  interval_cases d <;> decide

theorem readNat_natRepr (n : Nat) : readNat (natRepr n) = n := by
  rw [natRepr_eq_digits]
  by_cases h : n = 0
  · simp [h, readNat, char2digit, Nat.ofDigits]
  · simp only [h, ite_false]
    unfold readNat
    rw [List.map_reverse, List.reverse_reverse, List.map_map]
    rw [show (Nat.digits 10 n).map (char2digit ∘ digit2char)
        = (Nat.digits 10 n).map id from
      List.map_congr_left fun d hd =>
        char2digit_digit2char d (Nat.digits_lt_base (by norm_num) hd)]
    rw [List.map_id]
    exact Nat.ofDigits_digits 10 n

theorem natRepr_len_le (n k : Nat) (hk : 1 ≤ k) (h : n < 10 ^ k) :
    (natRepr n).length ≤ k := by
  rw [natRepr_eq_digits]
  by_cases h0 : n = 0
  · simp [h0]
    omega
  · simp only [h0, ite_false, List.length_reverse, List.length_map]
    rw [Nat.digits_len 10 n (by norm_num) h0]
    have := (Nat.lt_pow_iff_log_lt (by norm_num : 1 < 10) h0).mp h
    omega

theorem tokenizeGo_nonwhite :
    ∀ (t : List Char), (∀ c ∈ t, notWhite c = true) →
      ∀ (s : List Char) (cur : List Char),
        tokenizeGo (t ++ s) cur = tokenizeGo s (t.reverse ++ cur) := by
  intro t
  induction t with
  | nil => intro _ s cur; simp
  | cons c t' ih =>
    intro h s cur
    have hc : notWhite c = true := h c (List.mem_cons_self _ _)
    have hw : isWhite c = false := by
      unfold notWhite at hc
      simpa using hc
    simp only [List.cons_append, tokenizeGo, hw, Bool.false_eq_true, if_false]
    show tokenizeGo (t' ++ s) (c :: cur) = tokenizeGo s ((c :: t').reverse ++ cur)
    rw [ih (fun x hx => h x (List.mem_cons_of_mem _ hx)) s (c :: cur)]
    simp

theorem tokenize_spaces (k : Nat) (s : List Char) :
    tokenize (spaces k ++ s) = tokenize s := by
  induction k with
  | zero => simp [spaces]
  | succ m ih =>
    show tokenizeGo (spaces (m + 1) ++ s) [] = _
    rw [show spaces (m + 1) = ' ' :: spaces m from rfl]
    simp only [List.cons_append, tokenizeGo]
    rw [if_pos (by decide : isWhite ' ' = true), if_pos (by decide)]
    exact ih

/-- The tail after a token is empty or starts with whitespace. -/
def headWhite : List Char → Prop
  | [] => True
  | c :: _ => isWhite c = true

theorem tokenize_token (t s : List Char) (hne : t ≠ [])
    (hall : ∀ c ∈ t, notWhite c = true) (hs : headWhite s) :
    tokenize (t ++ s) = t :: tokenize s := by
  unfold tokenize
  rw [tokenizeGo_nonwhite t hall s []]
  rw [List.append_nil]
  cases s with
  | nil =>
    show (if (t.reverse).isEmpty then ([] : List (List Char))
      else [t.reverse.reverse]) = _
    rw [if_neg (by simpa using hne)]
    simp [tokenize, tokenizeGo]
  | cons c r =>
    have hw : isWhite c = true := hs
    show tokenizeGo (c :: r) t.reverse = t :: tokenizeGo (c :: r) []
    simp only [tokenizeGo, hw, if_true]
    rw [if_neg (show ¬(t.reverse.isEmpty = true) from by simpa using hne)]
    rw [if_pos (show (([] : List Char).isEmpty) = true from rfl)]
    simp

theorem checkStarting_spaces (k : Nat) (t : List Char) (c : Char) :
    checkStarting (spaces k ++ t) c = checkStarting t c := by
  induction k with
  | zero => simp [spaces]
  | succ m ih =>
    rw [show spaces (m + 1) = ' ' :: spaces m from rfl]
    simp only [List.cons_append, checkStarting]
    rw [if_pos (by decide : isWhite ' ' = true)]
    exact ih

theorem checkStarting_nonwhite (hd : Char) (tl : List Char) (c : Char)
    (h : notWhite hd = true) :
    checkStarting (hd :: tl) c = decide (hd = c) := by
  simp only [checkStarting]
  rw [if_neg (by unfold notWhite at h; simpa using h)]

theorem isBlankLine_spaces (k : Nat) (t : List Char) :
    isBlankLine (spaces k ++ t) = isBlankLine t := by
  induction k with
  | zero => simp [spaces]
  | succ m ih =>
    rw [show spaces (m + 1) = ' ' :: spaces m from rfl]
    simp only [List.cons_append, isBlankLine, List.all_cons]
    rw [show isWhite ' ' = true from by decide]
    simpa [isBlankLine] using ih

theorem isBlankLine_cons_nonwhite (hd : Char) (tl : List Char)
    (h : notWhite hd = true) : isBlankLine (hd :: tl) = false := by
  simp only [isBlankLine, List.all_cons]
  unfold notWhite at h
  simp only [Bool.not_eq_true'] at h
  simp [h]

theorem skipHeader_comment (l : List Char) (rest : List (List Char))
    (h : (isBlankLine l || checkStarting l '#') = true) :
    skipHeader (l :: rest) = skipHeader rest := by
  simp [skipHeader, h]

theorem skipHeader_sig (l : List Char) (rest : List (List Char))
    (h1 : isBlankLine l = false) (h2 : checkStarting l '#' = false) :
    skipHeader (l :: rest) = some (l, rest) := by
  simp [skipHeader, h1, h2]

/-- A line that begins (after optional spaces) with a non-white, non-`#`
character is significant for the skip loops. -/
theorem skipHeader_padded_token (k : Nat) (hd : Char) (tl : List Char)
    (rest : List (List Char)) (hh : notWhite hd = true) (hne : hd ≠ '#') :
    skipHeader ((spaces k ++ hd :: tl) :: rest)
      = some (spaces k ++ hd :: tl, rest) := by
  apply skipHeader_sig
  · rw [isBlankLine_spaces, isBlankLine_cons_nonwhite hd tl hh]
  · rw [checkStarting_spaces, checkStarting_nonwhite hd tl '#' hh]
    simpa using hne

theorem tokenize_padLeft_cont (w : Nat) (t s : List Char) (hne : t ≠ [])
    (hall : ∀ c ∈ t, notWhite c = true) (hs : headWhite s) :
    tokenize (padLeft w t ++ s) = t :: tokenize s := by
  unfold padLeft
  rw [List.append_assoc, tokenize_spaces, tokenize_token t s hne hall hs]

theorem tokenize_padLeft_end (w : Nat) (t : List Char) (hne : t ≠ [])
    (hall : ∀ c ∈ t, notWhite c = true) :
    tokenize (padLeft w t) = [t] := by
  rw [← List.append_nil (padLeft w t),
    tokenize_padLeft_cont w t [] hne hall trivial]
  rfl

theorem headWhite_padLeft (w : Nat) (t s : List Char) (h : t.length < w) :
    headWhite (padLeft w t ++ s) := by
  unfold padLeft spaces
  obtain ⟨k, hk⟩ : ∃ k, w - t.length = k + 1 := ⟨w - t.length - 1, by omega⟩
  rw [hk, List.replicate_succ]
  show isWhite ' ' = true
  decide

theorem headWhite_padLeft_end (w : Nat) (t : List Char) (h : t.length < w) :
    headWhite (padLeft w t) := by
  have h2 := headWhite_padLeft w t [] h
  simpa using h2

theorem tokenize_natRepr_field (w n : Nat) (s : List Char) (hs : headWhite s) :
    tokenize (padLeft w (natRepr n) ++ s) = natRepr n :: tokenize s :=
  tokenize_padLeft_cont w (natRepr n) s (natRepr_ne_nil n) (natRepr_notWhite n) hs

theorem tokenize_dimLine (i : Nat) (b : Block3D) (hb : goodDims b) :
    tokenize (dimLine i b)
      = [natRepr (i + 1), natRepr b.nI, natRepr b.nJ, natRepr b.nK] := by
  obtain ⟨h1, h2, h3, h4, h5, h6⟩ := hb
  have l1 : (natRepr b.nI).length < 8 := by
    have := natRepr_len_le b.nI 7 (by norm_num) (by omega)
    omega
  have l2 : (natRepr b.nJ).length < 8 := by
    have := natRepr_len_le b.nJ 7 (by norm_num) (by omega)
    omega
  have l3 : (natRepr b.nK).length < 8 := by
    have := natRepr_len_le b.nK 7 (by norm_num) (by omega)
    omega
  unfold dimLine
  simp only [List.append_assoc]
  rw [tokenize_natRepr_field 8 (i + 1) _ (headWhite_padLeft 8 _ _ l1)]
  rw [tokenize_natRepr_field 8 b.nI _ (headWhite_padLeft 8 _ _ l2)]
  rw [tokenize_natRepr_field 8 b.nJ _ (headWhite_padLeft_end 8 _ l3)]
  rw [tokenize_padLeft_end 8 (natRepr b.nK) (natRepr_ne_nil _) (natRepr_notWhite _)]

theorem matchDimLine_dimLine (i : Nat) (b : Block3D) (hb : goodDims b) :
    matchDimLine (dimLine i b)
      = some (natRepr (i + 1), natRepr b.nI, natRepr b.nJ, natRepr b.nK) := by
  unfold matchDimLine
  rw [tokenize_dimLine i b hb]
  simp [natRepr_digitTok]

theorem matchSingleNat_pad (w n : Nat) :
    matchSingleNat (padLeft w (natRepr n)) = some (natRepr n) := by
  unfold matchSingleNat
  rw [tokenize_padLeft_end w (natRepr n) (natRepr_ne_nil _) (natRepr_notWhite _)]
  simp [natRepr_digitTok]

theorem stoi_natRepr (n : Nat) (h : n ≤ 2147483647) :
    stoi (natRepr n) = .ok n := by
  unfold stoi
  rw [readNat_natRepr]
  rw [if_pos h]

theorem numTok_natRepr (n : Nat) (h : n < W) : numTok (natRepr n) = some n := by
  unfold numTok
  rw [readNat_natRepr]
  rw [if_pos ⟨natRepr_digitTok n, h⟩]

theorem set_append_len (xs : List (Option Block3D)) (y : Option Block3D)
    (ys : List (Option Block3D)) (v : Option Block3D) :
    (xs ++ y :: ys).set xs.length v = xs ++ v :: ys := by
  induction xs with
  | nil => rfl
  | cons x rest ih => simp [List.set_cons_succ, ih]

theorem readBlocksLoop_seq :
    ∀ (todo : List Block3D) (done : List (Option Block3D)) (N : Nat)
      (rest : List (List Char)),
      (∀ b ∈ todo, goodDims b) → done.length + todo.length = N →
      N ≤ 2147483647 →
      readBlocksLoop N todo.length (done ++ List.replicate todo.length none)
          ((List.enumFrom done.length todo).map (fun pb => dimLine pb.1 pb.2)
            ++ rest)
        = .ok (done ++ todo.map some, rest) := by
  intro todo
  induction todo with
  | nil =>
    intro done N rest _ _ _
    simp [readBlocksLoop]
  | cons b todo' ih =>
    intro done N rest hdims hlen hN
    have hgb : goodDims b := hdims b (List.mem_cons_self _ _)
    show readBlocksLoop N (todo'.length + 1) _ _ = _
    rw [show List.enumFrom done.length (b :: todo')
        = (done.length, b) :: List.enumFrom (done.length + 1) todo' from rfl]
    simp only [List.map_cons, List.cons_append]
    obtain ⟨d1, d2, d3, d4, d5, d6⟩ := hgb
    simp only [List.length_cons] at hlen
    simp only [readBlocksLoop, List.headD_cons, List.tail_cons,
      matchDimLine_dimLine done.length b ⟨d1, d2, d3, d4, d5, d6⟩,
      stoi_natRepr (done.length + 1) (by omega),
      stoi_natRepr b.nI (by omega), stoi_natRepr b.nJ (by omega),
      stoi_natRepr b.nK (by omega)]
    rw [if_neg (by omega), if_neg (by omega), if_neg (by omega),
      if_neg (by omega), if_neg (by omega)]
    rw [show done.length + 1 - 1 = done.length from by omega]
    simp only [List.length_cons]
    rw [show List.replicate (todo'.length + 1) (none : Option Block3D)
        = none :: List.replicate todo'.length none from rfl]
    rw [set_append_len done none (List.replicate todo'.length none) (some b)]
    rw [show (done ++ some b :: List.replicate todo'.length none)
        = (done ++ [some b]) ++ List.replicate todo'.length none
        from by simp]
    rw [show done.length + 1 = (done ++ [some b]).length from by simp]
    rw [ih (done ++ [some b]) N rest
      (fun x hx => hdims x (List.mem_cons_of_mem _ hx))
      (by simp; omega) hN]
    simp

theorem kwOf_props (bc : Nat) (h : validBC bc) :
    kwOf bc ≠ [] ∧ (kwOf bc).length ≤ 11 ∧
      (∀ c ∈ kwOf bc, notWhite c = true ∧ formalizeChar c = c) ∧
      idx2str bc = some (kwOf bc) ∧ str2idx (kwOf bc) = some bc ∧
      (kwOf bc).headD ' ' ≠ '#' := by
  obtain ⟨ha, hb⟩ := h
  interval_cases bc <;> decide

theorem spaces_formalize (k : Nat) :
    (spaces k).map formalizeChar = spaces k := by
  unfold spaces
  rw [List.map_replicate]
  rfl

theorem padLeft_natRepr_formalize (w n : Nat) :
    (padLeft w (natRepr n)).map formalizeChar = padLeft w (natRepr n) := by
  unfold padLeft
  rw [List.map_append, spaces_formalize, natRepr_formalize]

theorem map_formalize_entryLine (e : ENTRY) (kw : List Char)
    (hkw : ∀ c ∈ kw, formalizeChar c = c) :
    (entryLine kw e).map formalizeChar = entryLine kw e := by
  have hkwm : kw.map formalizeChar = kw := by
    rw [show kw.map formalizeChar = kw.map id from List.map_congr_left hkw]
    exact List.map_id _
  have hpadR : (padRight 13 kw).map formalizeChar = padRight 13 kw := by
    unfold padRight
    rw [List.map_append, hkwm, spaces_formalize]
  cases e with
  | single bc r =>
    unfold entryLine
    simp only [ENTRY.rg1, List.map_append, padLeft_natRepr_formalize, hpadR,
      List.map_nil]
  | double r1 r2 swp =>
    have hswap : (padLeft 10 (if swp then "TRUE".toList
        else "FALSE".toList)).map formalizeChar
        = padLeft 10 (if swp then "TRUE".toList else "FALSE".toList) := by
      cases swp <;> decide
    unfold entryLine
    simp only [ENTRY.rg1, List.map_append, padLeft_natRepr_formalize, hpadR,
      hswap]

theorem tokenize_entryLine_single (bc : Nat) (r : RANGE) (kw : List Char)
    (hne : kw ≠ []) (hlen : kw.length ≤ 11)
    (hall : ∀ c ∈ kw, notWhite c = true)
    (hf : r.F < 10 ^ 5) (hs1 : r.S1 < 10 ^ 8) (he1 : r.E1 < 10 ^ 5)
    (hs2 : r.S2 < 10 ^ 8) (he2 : r.E2 < 10 ^ 5) :
    tokenize (entryLine kw (ENTRY.single bc r))
      = [kw, natRepr r.B, natRepr r.F, natRepr r.S1, natRepr r.E1,
          natRepr r.S2, natRepr r.E2] := by
  have lf : (natRepr r.F).length < 6 := by
    have := natRepr_len_le r.F 5 (by norm_num) hf
    omega
  have ls1 : (natRepr r.S1).length < 9 := by
    have := natRepr_len_le r.S1 8 (by norm_num) hs1
    omega
  have le1 : (natRepr r.E1).length < 6 := by
    have := natRepr_len_le r.E1 5 (by norm_num) he1
    omega
  have ls2 : (natRepr r.S2).length < 9 := by
    have := natRepr_len_le r.S2 8 (by norm_num) hs2
    omega
  have le2 : (natRepr r.E2).length < 6 := by
    have := natRepr_len_le r.E2 5 (by norm_num) he2
    omega
  unfold entryLine padRight
  simp only [ENTRY.rg1, List.append_assoc, List.append_nil]
  rw [tokenize_token kw _ hne hall (by
    obtain ⟨k, hk⟩ : ∃ k, 13 - kw.length = k + 1 := ⟨13 - kw.length - 1, by omega⟩
    unfold spaces
    rw [hk, List.replicate_succ]
    show isWhite ' ' = true
    decide)]
  rw [tokenize_spaces]
  rw [tokenize_natRepr_field 6 r.B _ (headWhite_padLeft 6 _ _ lf)]
  rw [tokenize_natRepr_field 6 r.F _ (headWhite_padLeft 9 _ _ ls1)]
  rw [tokenize_natRepr_field 9 r.S1 _ (headWhite_padLeft 6 _ _ le1)]
  rw [tokenize_natRepr_field 6 r.E1 _ (headWhite_padLeft 9 _ _ ls2)]
  rw [tokenize_natRepr_field 9 r.S2 _ (headWhite_padLeft_end 6 _ le2)]
  rw [tokenize_padLeft_end 6 (natRepr r.E2) (natRepr_ne_nil _) (natRepr_notWhite _)]

theorem tokenize_entryLine_double (r1 r2 : RANGE) (swp : Bool) (kw : List Char)
    (hne : kw ≠ []) (hlen : kw.length ≤ 11)
    (hall : ∀ c ∈ kw, notWhite c = true)
    (hf : r1.F < 10 ^ 5) (hs1 : r1.S1 < 10 ^ 8) (he1 : r1.E1 < 10 ^ 5)
    (hs2 : r1.S2 < 10 ^ 8) (he2 : r1.E2 < 10 ^ 5)
    (hb' : r2.B < 10 ^ 8) (hf' : r2.F < 10 ^ 5) (hs1' : r2.S1 < 10 ^ 8)
    (he1' : r2.E1 < 10 ^ 5) (hs2' : r2.S2 < 10 ^ 8) (he2' : r2.E2 < 10 ^ 5) :
    tokenize (entryLine kw (ENTRY.double r1 r2 swp))
      = [kw, natRepr r1.B, natRepr r1.F, natRepr r1.S1, natRepr r1.E1,
          natRepr r1.S2, natRepr r1.E2, natRepr r2.B, natRepr r2.F,
          natRepr r2.S1, natRepr r2.E1, natRepr r2.S2, natRepr r2.E2,
          if swp then "TRUE".toList else "FALSE".toList] := by
  have lf : (natRepr r1.F).length < 6 := by
    have := natRepr_len_le r1.F 5 (by norm_num) hf
    omega
  have ls1 : (natRepr r1.S1).length < 9 := by
    have := natRepr_len_le r1.S1 8 (by norm_num) hs1
    omega
  have le1 : (natRepr r1.E1).length < 6 := by
    have := natRepr_len_le r1.E1 5 (by norm_num) he1
    omega
  have ls2 : (natRepr r1.S2).length < 9 := by
    have := natRepr_len_le r1.S2 8 (by norm_num) hs2
    omega
  have le2 : (natRepr r1.E2).length < 6 := by
    have := natRepr_len_le r1.E2 5 (by norm_num) he2
    omega
  have lb' : (natRepr r2.B).length < 9 := by
    have := natRepr_len_le r2.B 8 (by norm_num) hb'
    omega
  have lf' : (natRepr r2.F).length < 6 := by
    have := natRepr_len_le r2.F 5 (by norm_num) hf'
    omega
  have ls1' : (natRepr r2.S1).length < 9 := by
    have := natRepr_len_le r2.S1 8 (by norm_num) hs1'
    omega
  have le1' : (natRepr r2.E1).length < 6 := by
    have := natRepr_len_le r2.E1 5 (by norm_num) he1'
    omega
  have ls2' : (natRepr r2.S2).length < 9 := by
    have := natRepr_len_le r2.S2 8 (by norm_num) hs2'
    omega
  have le2' : (natRepr r2.E2).length < 6 := by
    have := natRepr_len_le r2.E2 5 (by norm_num) he2'
    omega
  have lsw : (if swp then "TRUE".toList else "FALSE".toList).length < 10 := by
    cases swp <;> decide
  unfold entryLine padRight
  simp only [ENTRY.rg1, List.append_assoc]
  rw [tokenize_token kw _ hne hall (by
    obtain ⟨k, hk⟩ : ∃ k, 13 - kw.length = k + 1 := ⟨13 - kw.length - 1, by omega⟩
    unfold spaces
    rw [hk, List.replicate_succ]
    show isWhite ' ' = true
    decide)]
  rw [tokenize_spaces]
  rw [tokenize_natRepr_field 6 r1.B _ (headWhite_padLeft 6 _ _ lf)]
  rw [tokenize_natRepr_field 6 r1.F _ (headWhite_padLeft 9 _ _ ls1)]
  rw [tokenize_natRepr_field 9 r1.S1 _ (headWhite_padLeft 6 _ _ le1)]
  rw [tokenize_natRepr_field 6 r1.E1 _ (headWhite_padLeft 9 _ _ ls2)]
  rw [tokenize_natRepr_field 9 r1.S2 _ (headWhite_padLeft 6 _ _ le2)]
  rw [tokenize_natRepr_field 6 r1.E2 _ (headWhite_padLeft 9 _ _ lb')]
  rw [tokenize_natRepr_field 9 r2.B _ (headWhite_padLeft 6 _ _ lf')]
  rw [tokenize_natRepr_field 6 r2.F _ (headWhite_padLeft 9 _ _ ls1')]
  rw [tokenize_natRepr_field 9 r2.S1 _ (headWhite_padLeft 6 _ _ le1')]
  rw [tokenize_natRepr_field 6 r2.E1 _ (headWhite_padLeft 9 _ _ ls2')]
  rw [tokenize_natRepr_field 9 r2.S2 _ (headWhite_padLeft 6 _ _ le2')]
  rw [tokenize_natRepr_field 6 r2.E2 _ (headWhite_padLeft_end 10 _ lsw)]
  rw [tokenize_padLeft_end 10 _ (by cases swp <;> decide)
    (by cases swp <;> decide)]

theorem readNumsBuf_exact :
    ∀ (toks : List (List Char)) (vs : List Nat) (rest : List (List Char)),
      List.Forall₂ (fun t v => numTok t = some v) toks vs →
      readNumsBuf vs.length (toks ++ rest) = (vs, rest, true) := by
  intro toks vs rest h
  induction h with
  | nil => rfl
  | cons ht hrest ih =>
    simp only [List.length_cons, List.cons_append, readNumsBuf, ht, ih]

theorem entryIter_entryLine (e : ENTRY) (he : entryFieldsOK e) :
    entryIter [] (entryLine (kwOf e.type) e) = .ok ([], e) := by
  cases e with
  | single bc r =>
    obtain ⟨hv, hno, hB, hF, hS1, hE1, hS2, hE2⟩ := he
    obtain ⟨k1, k2, k3, k4, k5, k6⟩ := kwOf_props bc hv
    have htype : (ENTRY.single bc r).type = bc := rfl
    unfold entryIter
    rw [htype, map_formalize_entryLine _ _ (fun c hc => (k3 c hc).2)]
    rw [tokenize_entryLine_single bc r (kwOf bc) k1 k2
      (fun c hc => (k3 c hc).1) hF hS1 hE1 hS2 hE2]
    simp only [List.nil_append, k5]
    rw [if_neg hno]
    have hreads : readNumsBuf 6
        ([natRepr r.B, natRepr r.F, natRepr r.S1, natRepr r.E1,
          natRepr r.S2, natRepr r.E2] ++ [])
        = ([r.B, r.F, r.S1, r.E1, r.S2, r.E2], [], true) := by
      have hW : (10 : Nat) ^ 8 < W := by norm_num [W]
      exact readNumsBuf_exact _ [r.B, r.F, r.S1, r.E1, r.S2, r.E2] []
        (by
          refine List.Forall₂.cons (numTok_natRepr r.B (by norm_num [W] at *; omega)) ?_
          refine List.Forall₂.cons (numTok_natRepr r.F (by norm_num [W] at *; omega)) ?_
          refine List.Forall₂.cons (numTok_natRepr r.S1 (by norm_num [W] at *; omega)) ?_
          refine List.Forall₂.cons (numTok_natRepr r.E1 (by norm_num [W] at *; omega)) ?_
          refine List.Forall₂.cons (numTok_natRepr r.S2 (by norm_num [W] at *; omega)) ?_
          refine List.Forall₂.cons (numTok_natRepr r.E2 (by norm_num [W] at *; omega)) ?_
          exact List.Forall₂.nil)
    rw [show ([natRepr r.B, natRepr r.F, natRepr r.S1, natRepr r.E1,
        natRepr r.S2, natRepr r.E2] : List (List Char))
        = [natRepr r.B, natRepr r.F, natRepr r.S1, natRepr r.E1,
          natRepr r.S2, natRepr r.E2] ++ [] from by simp]
    rw [hreads]
    rfl
  | double r1 r2 swp =>
    obtain ⟨⟨hB, hF, hS1, hE1, hS2, hE2⟩, ⟨hB', hF', hS1', hE1', hS2', hE2'⟩⟩ := he
    have hv : validBC BC.ONE_TO_ONE := by decide
    obtain ⟨k1, k2, k3, k4, k5, k6⟩ := kwOf_props BC.ONE_TO_ONE hv
    have htype : (ENTRY.double r1 r2 swp).type = BC.ONE_TO_ONE := rfl
    unfold entryIter
    rw [htype, map_formalize_entryLine _ _ (fun c hc => (k3 c hc).2)]
    rw [tokenize_entryLine_double r1 r2 swp (kwOf BC.ONE_TO_ONE) k1 k2
      (fun c hc => (k3 c hc).1) hF hS1 hE1 hS2 hE2 hB' hF' hS1' hE1' hS2' hE2']
    simp only [List.nil_append, k5]
    simp only [if_true]
    have hreads : readNumsBuf 12
        ([natRepr r1.B, natRepr r1.F, natRepr r1.S1, natRepr r1.E1,
          natRepr r1.S2, natRepr r1.E2, natRepr r2.B, natRepr r2.F,
          natRepr r2.S1, natRepr r2.E1, natRepr r2.S2, natRepr r2.E2]
          ++ [if swp then "TRUE".toList else "FALSE".toList])
        = ([r1.B, r1.F, r1.S1, r1.E1, r1.S2, r1.E2,
            r2.B, r2.F, r2.S1, r2.E1, r2.S2, r2.E2],
          [if swp then "TRUE".toList else "FALSE".toList], true) := by
      exact readNumsBuf_exact _
        [r1.B, r1.F, r1.S1, r1.E1, r1.S2, r1.E2,
         r2.B, r2.F, r2.S1, r2.E1, r2.S2, r2.E2] _
        (by
          refine List.Forall₂.cons (numTok_natRepr r1.B (by norm_num [W] at *; omega)) ?_
          refine List.Forall₂.cons (numTok_natRepr r1.F (by norm_num [W] at *; omega)) ?_
          refine List.Forall₂.cons (numTok_natRepr r1.S1 (by norm_num [W] at *; omega)) ?_
          refine List.Forall₂.cons (numTok_natRepr r1.E1 (by norm_num [W] at *; omega)) ?_
          refine List.Forall₂.cons (numTok_natRepr r1.S2 (by norm_num [W] at *; omega)) ?_
          refine List.Forall₂.cons (numTok_natRepr r1.E2 (by norm_num [W] at *; omega)) ?_
          refine List.Forall₂.cons (numTok_natRepr r2.B (by norm_num [W] at *; omega)) ?_
          refine List.Forall₂.cons (numTok_natRepr r2.F (by norm_num [W] at *; omega)) ?_
          refine List.Forall₂.cons (numTok_natRepr r2.S1 (by norm_num [W] at *; omega)) ?_
          refine List.Forall₂.cons (numTok_natRepr r2.E1 (by norm_num [W] at *; omega)) ?_
          refine List.Forall₂.cons (numTok_natRepr r2.S2 (by norm_num [W] at *; omega)) ?_
          refine List.Forall₂.cons (numTok_natRepr r2.E2 (by norm_num [W] at *; omega)) ?_
          exact List.Forall₂.nil)
    rw [show ([natRepr r1.B, natRepr r1.F, natRepr r1.S1, natRepr r1.E1,
        natRepr r1.S2, natRepr r1.E2, natRepr r2.B, natRepr r2.F,
        natRepr r2.S1, natRepr r2.E1, natRepr r2.S2, natRepr r2.E2,
        if swp then "TRUE".toList else "FALSE".toList] : List (List Char))
        = [natRepr r1.B, natRepr r1.F, natRepr r1.S1, natRepr r1.E1,
          natRepr r1.S2, natRepr r1.E2, natRepr r2.B, natRepr r2.F,
          natRepr r2.S1, natRepr r2.E1, natRepr r2.S2, natRepr r2.E2]
          ++ [if swp then "TRUE".toList else "FALSE".toList] from by simp]
    rw [hreads]
    cases swp with
    | true =>
      simp only [if_true]
      simp
      exact ⟨rfl, rfl⟩
    | false =>
      simp
      exact ⟨rfl, rfl⟩

theorem entryLoop_lines :
    ∀ (rest : List ENTRY) (e0 : ENTRY) (acc : List ENTRY),
      entryFieldsOK e0 → (∀ e ∈ rest, entryFieldsOK e) →
      entryLoop (entryLine (kwOf e0.type) e0)
          (rest.map fun e => entryLine (kwOf e.type) e) [] acc
        = .ok (acc ++ e0 :: rest) := by
  intro rest
  induction rest with
  | nil =>
    intro e0 acc h0 _
    unfold entryLoop
    rw [entryIter_entryLine e0 h0]
    rfl
  | cons e1 rest' ih =>
    intro e0 acc h0 hr
    unfold entryLoop
    rw [entryIter_entryLine e0 h0]
    simp only [List.map_cons]
    rw [ih e1 (acc ++ [e0]) (hr e1 (List.mem_cons_self _ _))
      (fun x hx => hr x (List.mem_cons_of_mem _ hx))]
    simp

theorem entryLinesOf_ok (es : List ENTRY) (hes : ∀ e ∈ es, entryFieldsOK e)
    (hwf : ∀ bc r, ENTRY.single bc r ∈ es → validBC bc) :
    entryLinesOf es = .ok (es.map fun e => entryLine (kwOf e.type) e) := by
  induction es with
  | nil => rfl
  | cons e rest ih =>
    have hkw : idx2str e.type = some (kwOf e.type) := by
      cases e with
      | single bc r =>
        exact (kwOf_props bc (hwf bc r (List.mem_cons_self _ _))).2.2.2.1
      | double r1 r2 swp =>
        exact (kwOf_props BC.ONE_TO_ONE (by decide)).2.2.2.1
    show entryLinesOf (e :: rest) = _
    unfold entryLinesOf
    rw [hkw]
    rw [ih (fun x hx => hes x (List.mem_cons_of_mem _ hx))
      (fun bc r hmem => hwf bc r (List.mem_cons_of_mem _ hmem))]
    simp

theorem skipHeader_writer_header (rest : List (List Char)) :
    skipHeader (headerLines ++ rest) = skipHeader rest := by
  show skipHeader (_ :: _ :: _ :: _ :: rest) = _
  rw [skipHeader_comment _ _ (by decide), skipHeader_comment _ _ (by decide),
    skipHeader_comment _ _ (by decide), skipHeader_comment _ _ (by decide)]

theorem skipHeader_writer_sep (rest : List (List Char)) :
    skipHeader (sepLines ++ rest) = skipHeader rest := by
  show skipHeader (_ :: _ :: _ :: rest) = _
  rw [skipHeader_comment _ _ (by decide), skipHeader_comment _ _ (by decide),
    skipHeader_comment _ _ (by decide)]

theorem skipHeader_entryLine (e : ENTRY) (kw : List Char) (hne : kw ≠ [])
    (hall : ∀ c ∈ kw, notWhite c = true) (hhash : kw.headD ' ' ≠ '#')
    (rest : List (List Char)) :
    skipHeader (entryLine kw e :: rest) = some (entryLine kw e, rest) := by
  obtain ⟨hd, tl, rfl⟩ : ∃ hd tl, kw = hd :: tl := by
    cases kw with
    | nil => exact absurd rfl hne
    | cons hd tl => exact ⟨hd, tl, rfl⟩
  have hh : notWhite hd = true := hall hd (List.mem_cons_self _ _)
  have hh2 : hd ≠ '#' := by simpa using hhash
  obtain ⟨tail, htail⟩ : ∃ tail, entryLine (hd :: tl) e = hd :: tail := ⟨_, rfl⟩
  apply skipHeader_sig
  · rw [htail]
    exact isBlankLine_cons_nonwhite hd tail hh
  · rw [htail, checkStarting_nonwhite hd tail '#' hh]
    simpa using hh2

theorem skipHeader_padded_natRepr (w n : Nat) (rest : List (List Char)) :
    skipHeader (padLeft w (natRepr n) :: rest)
      = some (padLeft w (natRepr n), rest) := by
  obtain ⟨hd, tl, hh⟩ : ∃ hd tl, natRepr n = hd :: tl := by
    cases hx : natRepr n with
    | nil => exact absurd hx (natRepr_ne_nil n)
    | cons a l => exact ⟨a, l, rfl⟩
  have hmem : hd ∈ natRepr n := by
    rw [hh]
    exact List.mem_cons_self _ _
  have hprops := charListProps hd (natRepr_chars n hd hmem)
  have hkey := skipHeader_padded_token (w - (natRepr n).length) hd tl rest
    hprops.2.1 hprops.2.2.2.1
  rw [show padLeft w (natRepr n)
      = spaces (w - (natRepr n).length) ++ hd :: tl from by rw [← hh]; rfl]
  exact hkey

theorem connFold_ok_refs (slots : List (Option Block3D)) :
    ∀ (es : List ENTRY) (m0 : NeighMap),
      (∀ bc r, ENTRY.single bc r ∈ es → bc ≠ BC.ONE_TO_ONE) →
      otoRefsOK slots es →
      ∃ m, connFold slots m0 es = .ok m := by
  intro es
  induction es with
  | nil => intro m0 _ _; exact ⟨m0, rfl⟩
  | cons e rest ih =>
    intro m0 hwf hrefs
    cases e with
    | single bc r =>
      obtain ⟨m, hm⟩ := ih m0
        (fun bc2 r2 hmem => hwf bc2 r2 (List.mem_cons_of_mem _ hmem))
        (fun x hx ht => hrefs x (List.mem_cons_of_mem _ hx) ht)
      refine ⟨m, ?_⟩
      rw [connFold_cons,
        connectOne_skip slots m0 bc r (hwf bc r (List.mem_cons_self _ _))]
      exact hm
    | double r1 r2 swp =>
      obtain ⟨hr1, hr2⟩ :=
        hrefs (ENTRY.double r1 r2 swp) (List.mem_cons_self _ _) rfl
      obtain ⟨m, hm⟩ := ih
        (updNeigh (updNeigh m0 (r1.B, r1.F) (r2.B, r2.F))
          (r2.B, r2.F) (r1.B, r1.F))
        (fun bc2 rr hmem => hwf bc2 rr (List.mem_cons_of_mem _ hmem))
        (fun x hx ht => hrefs x (List.mem_cons_of_mem _ hx) ht)
      refine ⟨m, ?_⟩
      rw [connFold_cons, connectOne_ok slots m0 r1 r2 swp hr1 hr2]
      exact hm

/-- C9 (amended): writing any model whose numeric fields fit strictly inside
their output columns (dimensions below `10^7` for the `setw(8)` columns;
entry fields below `10^5` in `setw(6)` columns and below `10^8` in `setw(9)`
columns) and whose `ONE_TO_ONE` references are resolvable, and re-parsing the
written file, yields exactly the original model: the same block list and the
identical entry list.  (Without the width conditions the round trip fails:
adjacent full columns merge into one token, see the counterexample.) -/
theorem C9_roundtrip_amended (blks : List Block3D) (es : List ENTRY)
    (hb : blks ≠ []) (he : es ≠ [])
    (hN : blks.length ≤ 2147483647)
    (hdims : ∀ b ∈ blks, goodDims b)
    (hes : ∀ e ∈ es, entryFieldsOK e)
    (hrefs : otoRefsOK (blks.map some) es) :
    ∃ g, writeToFile blks es = .ok g
      ∧ readFromFile g = .ok (blks.map some, es) := by
  have hwfv : ∀ bc r, ENTRY.single bc r ∈ es → validBC bc := by
    intro bc r hm
    exact (hes _ hm).1
  have hwfno : ∀ bc r, ENTRY.single bc r ∈ es → bc ≠ BC.ONE_TO_ONE := by
    intro bc r hm
    exact (hes _ hm).2.1
  have hlines := entryLinesOf_ok es hes hwfv
  obtain ⟨e0, esrest, rfl⟩ : ∃ e0 esrest, es = e0 :: esrest := by
    cases es with
    | nil => exact absurd rfl he
    | cons a l => exact ⟨a, l, rfl⟩
  refine ⟨headerLines ++ [padLeft 8 (natRepr blks.length)]
    ++ (blks.enum.map fun pb => dimLine pb.1 pb.2) ++ sepLines
    ++ ((e0 :: esrest).map fun e => entryLine (kwOf e.type) e), ?_, ?_⟩
  · unfold writeToFile
    rw [hlines]
  · have hne0 : ¬(blks.length = 0) := by
      intro hc
      exact hb (List.eq_nil_of_length_eq_zero hc)
    have hblocks := readBlocksLoop_seq blks [] blks.length
      (sepLines ++ ((e0 :: esrest).map fun e => entryLine (kwOf e.type) e))
      hdims (by simp) hN
    simp only [List.nil_append, List.length_nil] at hblocks
    have henum : List.enumFrom 0 blks = blks.enum := rfl
    rw [henum] at hblocks
    have hv0 : validBC e0.type := by
      cases e0 with
      | single bc r => exact hwfv bc r (List.mem_cons_self _ _)
      | double r1 r2 swp =>
        show validBC BC.ONE_TO_ONE
        decide
    obtain ⟨k1, k2, k3, k4, k5, k6⟩ := kwOf_props e0.type hv0
    have hskipentry := skipHeader_entryLine e0 (kwOf e0.type) k1
      (fun c hc => (k3 c hc).1) k6
      (esrest.map fun e => entryLine (kwOf e.type) e)
    have hloop := entryLoop_lines esrest e0 []
      (hes e0 (List.mem_cons_self _ _))
      (fun x hx => hes x (List.mem_cons_of_mem _ hx))
    simp only [List.nil_append] at hloop
    obtain ⟨m, hconn⟩ := connFold_ok_refs (blks.map some) (e0 :: esrest)
      (fun _ => none) hwfno hrefs
    have hconn2 : establishConn (blks.map some) (e0 :: esrest) = .ok m := hconn
    unfold readFromFile
    simp only [List.append_assoc, List.cons_append, List.nil_append]
    rw [skipHeader_writer_header]
    rw [skipHeader_padded_natRepr 8 blks.length]
    simp only [matchSingleNat_pad, stoi_natRepr blks.length hN]
    rw [if_neg hne0]
    simp only [List.map_cons] at hblocks
    simp only [List.map_cons]
    rw [hblocks]
    simp only
    rw [skipHeader_writer_sep]
    rw [hskipentry]
    simp only
    rw [hloop]
    simp only
    rw [hconn2]

theorem seg_mem (a b x : Nat) (h1 : a ≤ x) (h2 : x ≤ b) : x ∈ seg a b := by
  unfold seg
  exact List.mem_map.mpr ⟨x - a, List.mem_range.mpr (by omega), by omega⟩

theorem updFace_self (fs : Nat → Option FACE) (k : Nat) (v : Option FACE) :
    updFace fs k v k = v := by
  unfold updFace
  rw [if_pos rfl]

theorem updFace_other (fs : Nat → Option FACE) (k : Nat) (v : Option FACE)
    (x : Nat) (h : x ≠ k) : updFace fs k v x = fs x := by
  unfold updFace
  rw [if_neg h]

theorem applyItems_absent :
    ∀ (its : List GlueItem) (fs : Nat → Option FACE) (x : Nat),
      x ∉ its.map GlueItem.key → applyItems fs its x = fs x := by
  intro its
  induction its with
  | nil => intro fs x _; rfl
  | cons it rest ih =>
    intro fs x hx
    simp only [List.map_cons, List.mem_cons] at hx
    push_neg at hx
    show applyItems (updFace fs it.key (some it.fr)) rest x = fs x
    rw [ih _ x hx.2, updFace_other _ _ _ _ hx.1]

theorem applyItems_found :
    ∀ (its : List GlueItem) (fs : Nat → Option FACE) (it : GlueItem),
      it ∈ its → (its.map GlueItem.key).Nodup →
      applyItems fs its it.key = some it.fr := by
  intro its
  induction its with
  | nil => intro fs it h _; exact absurd h (List.not_mem_nil _)
  | cons it0 rest ih =>
    intro fs it hmem hnd
    simp only [List.map_cons, List.nodup_cons] at hnd
    cases List.mem_cons.mp hmem with
    | inl heq =>
      subst heq
      show applyItems (updFace fs it.key (some it.fr)) rest it.key = some it.fr
      rw [applyItems_absent rest _ it.key hnd.1, updFace_self]
    | inr hr =>
      show applyItems (updFace fs it0.key (some it0.fr)) rest it.key
        = some it.fr
      exact ih _ it hr hnd.2

theorem glueFold_fresh :
    ∀ (its : List GlueItem) (fs : Nat → Option FACE),
      (∀ it ∈ its, fs it.key = none) → (its.map GlueItem.key).Nodup →
      glueFold fs its = .ok (applyItems fs its) := by
  intro its
  induction its with
  | nil => intro fs _ _; rfl
  | cons it rest ih =>
    intro fs hnone hnd
    simp only [List.map_cons, List.nodup_cons] at hnd
    have hk : fs it.key = none := hnone it (List.mem_cons_self _ _)
    have hstep : glueStep fs it = .ok (updFace fs it.key (some it.fr)) := by
      unfold glueStep
      rw [hk]
      exact ite_self _
    have hrest : ∀ it2 ∈ rest, updFace fs it.key (some it.fr) it2.key
        = none := by
      intro it2 h2
      have hne : it2.key ≠ it.key := by
        intro hc
        exact hnd.1 (hc ▸ List.mem_map_of_mem GlueItem.key h2)
      rw [updFace_other _ _ _ _ hne]
      exact hnone it2 (List.mem_cons_of_mem _ h2)
    simp only [glueFold, hstep]
    rw [ih _ hrest hnd.2]
    rfl

/-- C10: for every cell numbering (`CellSeq`/`NodeSeq`/`FaceSeq` taken as
arbitrary functions, the `nmf.h` numbering phase being external to the
source tree) under which the nine loops address pairwise distinct face
indices, the one-block face-copying pass of `GridTool::XF::MESH::MESH`
succeeds, and every face record follows the face-node-ordering table
relative to its right cell: an I-internal face at `2 <= i <= nI-1` has left
cell `(i-1,j,k)`, right cell `(i,j,k)` and nodes `(c1,c5,c8,c4)` of the
right cell; a J-internal face has left cell `(i,j-1,k)` and nodes
`(c6,c5,c1,c2)`; a K-internal face has left cell `(i,j,k-1)` and nodes
`(c4,c3,c2,c1)`; and each surface face, on first visit, takes its surface's
ordering - I-MIN `(c1,c5,c8,c4)`, I-MAX `(c2,c3,c7,c6)`, J-MIN
`(c6,c5,c1,c2)`, J-MAX `(c3,c4,c8,c7)`, K-MIN `(c4,c3,c2,c1)`, K-MAX
`(c8,c5,c6,c7)` - with right cell the adjacent cell, left cell 0, and
`atBdry` the negated shared-surface flag. -/
theorem C10_face_assembly_tables (cs : Nat → Nat → Nat → Nat)
    (ns fseq : Nat → Nat → Nat → Nat → Nat) (b : Block3D)
    (shared : Nat → Bool)
    (hinj : ((glueItems cs ns fseq b shared).map GlueItem.key).Nodup) :
    ∃ fs, glueFaces cs ns fseq b shared = .ok fs
      ∧ (∀ i j k, 2 ≤ i → i ≤ b.nI - 1 → 1 ≤ j → j ≤ b.nJ - 1 →
          1 ≤ k → k ≤ b.nK - 1 →
          fs (fseq i j k 1) = some ⟨false, true,
            [ns i j k 1, ns i j k 5, ns i j k 8, ns i j k 4],
            cs (i - 1) j k, cs i j k⟩)
      ∧ (∀ i j k, 1 ≤ i → i ≤ b.nI - 1 → 2 ≤ j → j ≤ b.nJ - 1 →
          1 ≤ k → k ≤ b.nK - 1 →
          fs (fseq i j k 3) = some ⟨false, true,
            [ns i j k 6, ns i j k 5, ns i j k 1, ns i j k 2],
            cs i (j - 1) k, cs i j k⟩)
      ∧ (∀ i j k, 1 ≤ i → i ≤ b.nI - 1 → 1 ≤ j → j ≤ b.nJ - 1 →
          2 ≤ k → k ≤ b.nK - 1 →
          fs (fseq i j k 5) = some ⟨false, true,
            [ns i j k 4, ns i j k 3, ns i j k 2, ns i j k 1],
            cs i j (k - 1), cs i j k⟩)
      ∧ (∀ j k, 1 ≤ j → j ≤ b.nJ - 1 → 1 ≤ k → k ≤ b.nK - 1 →
          fs (fseq 1 j k 1) = some ⟨!shared 1, true,
            [ns 1 j k 1, ns 1 j k 5, ns 1 j k 8, ns 1 j k 4], 0, cs 1 j k⟩)
      ∧ (∀ j k, 1 ≤ j → j ≤ b.nJ - 1 → 1 ≤ k → k ≤ b.nK - 1 →
          fs (fseq (b.nI - 1) j k 2) = some ⟨!shared 2, true,
            [ns (b.nI - 1) j k 2, ns (b.nI - 1) j k 3, ns (b.nI - 1) j k 7,
              ns (b.nI - 1) j k 6], 0, cs (b.nI - 1) j k⟩)
      ∧ (∀ i k, 1 ≤ i → i ≤ b.nI - 1 → 1 ≤ k → k ≤ b.nK - 1 →
          fs (fseq i 1 k 3) = some ⟨!shared 3, true,
            [ns i 1 k 6, ns i 1 k 5, ns i 1 k 1, ns i 1 k 2], 0, cs i 1 k⟩)
      ∧ (∀ i k, 1 ≤ i → i ≤ b.nI - 1 → 1 ≤ k → k ≤ b.nK - 1 →
          fs (fseq i (b.nJ - 1) k 4) = some ⟨!shared 4, true,
            [ns i (b.nJ - 1) k 3, ns i (b.nJ - 1) k 4, ns i (b.nJ - 1) k 8,
              ns i (b.nJ - 1) k 7], 0, cs i (b.nJ - 1) k⟩)
      ∧ (∀ i j, 1 ≤ i → i ≤ b.nI - 1 → 1 ≤ j → j ≤ b.nJ - 1 →
          fs (fseq i j 1 5) = some ⟨!shared 5, true,
            [ns i j 1 4, ns i j 1 3, ns i j 1 2, ns i j 1 1], 0, cs i j 1⟩)
      ∧ (∀ i j, 1 ≤ i → i ≤ b.nI - 1 → 1 ≤ j → j ≤ b.nJ - 1 →
          fs (fseq i j (b.nK - 1) 6) = some ⟨!shared 6, true,
            [ns i j (b.nK - 1) 8, ns i j (b.nK - 1) 5, ns i j (b.nK - 1) 6,
              ns i j (b.nK - 1) 7], 0, cs i j (b.nK - 1)⟩) := by
  refine ⟨applyItems (fun _ => none) (glueItems cs ns fseq b shared),
    ?_, ?_, ?_, ?_, ?_, ?_, ?_, ?_, ?_, ?_⟩
  · unfold glueFaces
    exact glueFold_fresh _ _ (fun it _ => rfl) hinj
  · intro i j k h2 hi hj1 hj2 hk1 hk2
    refine applyItems_found _ _ ⟨fseq i j k 1, ⟨false, true,
      [ns i j k 1, ns i j k 5, ns i j k 8, ns i j k 4],
      cs (i - 1) j k, cs i j k⟩, false⟩ ?_ hinj
    unfold glueItems
    refine List.mem_append_left _ (List.mem_append_left _
      (List.mem_append_left _ (List.mem_append_left _
      (List.mem_append_left _ (List.mem_append_left _
      (List.mem_append_left _ (List.mem_append_left _ ?_)))))))
    unfold itemsInternalI
    exact List.mem_flatMap.mpr ⟨k, seg_mem 1 (b.nK - 1) k hk1 hk2,
      List.mem_flatMap.mpr ⟨j, seg_mem 1 (b.nJ - 1) j hj1 hj2,
        List.mem_map.mpr ⟨i, seg_mem 2 (b.nI - 1) i h2 hi, rfl⟩⟩⟩
  · intro i j k hi1 hi2 h2 hj2 hk1 hk2
    refine applyItems_found _ _ ⟨fseq i j k 3, ⟨false, true,
      [ns i j k 6, ns i j k 5, ns i j k 1, ns i j k 2],
      cs i (j - 1) k, cs i j k⟩, false⟩ ?_ hinj
    unfold glueItems
    refine List.mem_append_left _ (List.mem_append_left _
      (List.mem_append_left _ (List.mem_append_left _
      (List.mem_append_left _ (List.mem_append_left _
      (List.mem_append_left _ (List.mem_append_right _ ?_)))))))
    unfold itemsInternalJ
    exact List.mem_flatMap.mpr ⟨k, seg_mem 1 (b.nK - 1) k hk1 hk2,
      List.mem_flatMap.mpr ⟨i, seg_mem 1 (b.nI - 1) i hi1 hi2,
        List.mem_map.mpr ⟨j, seg_mem 2 (b.nJ - 1) j h2 hj2, rfl⟩⟩⟩
  · intro i j k hi1 hi2 hj1 hj2 h2 hk2
    refine applyItems_found _ _ ⟨fseq i j k 5, ⟨false, true,
      [ns i j k 4, ns i j k 3, ns i j k 2, ns i j k 1],
      cs i j (k - 1), cs i j k⟩, false⟩ ?_ hinj
    unfold glueItems
    refine List.mem_append_left _ (List.mem_append_left _
      (List.mem_append_left _ (List.mem_append_left _
      (List.mem_append_left _ (List.mem_append_left _
      (List.mem_append_right _ ?_))))))
    unfold itemsInternalK
    exact List.mem_flatMap.mpr ⟨i, seg_mem 1 (b.nI - 1) i hi1 hi2,
      List.mem_flatMap.mpr ⟨j, seg_mem 1 (b.nJ - 1) j hj1 hj2,
        List.mem_map.mpr ⟨k, seg_mem 2 (b.nK - 1) k h2 hk2, rfl⟩⟩⟩
  · intro j k hj1 hj2 hk1 hk2
    refine applyItems_found _ _ ⟨fseq 1 j k 1, ⟨!shared 1, true,
      [ns 1 j k 1, ns 1 j k 5, ns 1 j k 8, ns 1 j k 4], 0, cs 1 j k⟩,
      true⟩ ?_ hinj
    unfold glueItems
    refine List.mem_append_left _ (List.mem_append_left _
      (List.mem_append_left _ (List.mem_append_left _
      (List.mem_append_left _ (List.mem_append_right _ ?_)))))
    unfold itemsIMin
    exact List.mem_flatMap.mpr ⟨k, seg_mem 1 (b.nK - 1) k hk1 hk2,
      List.mem_map.mpr ⟨j, seg_mem 1 (b.nJ - 1) j hj1 hj2, rfl⟩⟩
  · intro j k hj1 hj2 hk1 hk2
    refine applyItems_found _ _ ⟨fseq (b.nI - 1) j k 2, ⟨!shared 2, true,
      [ns (b.nI - 1) j k 2, ns (b.nI - 1) j k 3, ns (b.nI - 1) j k 7,
        ns (b.nI - 1) j k 6], 0, cs (b.nI - 1) j k⟩, true⟩ ?_ hinj
    unfold glueItems
    refine List.mem_append_left _ (List.mem_append_left _
      (List.mem_append_left _ (List.mem_append_left _
      (List.mem_append_right _ ?_))))
    unfold itemsIMax
    exact List.mem_flatMap.mpr ⟨k, seg_mem 1 (b.nK - 1) k hk1 hk2,
      List.mem_map.mpr ⟨j, seg_mem 1 (b.nJ - 1) j hj1 hj2, rfl⟩⟩
  · intro i k hi1 hi2 hk1 hk2
    refine applyItems_found _ _ ⟨fseq i 1 k 3, ⟨!shared 3, true,
      [ns i 1 k 6, ns i 1 k 5, ns i 1 k 1, ns i 1 k 2], 0, cs i 1 k⟩,
      true⟩ ?_ hinj
    unfold glueItems
    refine List.mem_append_left _ (List.mem_append_left _
      (List.mem_append_left _ (List.mem_append_right _ ?_)))
    unfold itemsJMin
    exact List.mem_flatMap.mpr ⟨k, seg_mem 1 (b.nK - 1) k hk1 hk2,
      List.mem_map.mpr ⟨i, seg_mem 1 (b.nI - 1) i hi1 hi2, rfl⟩⟩
  · intro i k hi1 hi2 hk1 hk2
    refine applyItems_found _ _ ⟨fseq i (b.nJ - 1) k 4, ⟨!shared 4, true,
      [ns i (b.nJ - 1) k 3, ns i (b.nJ - 1) k 4, ns i (b.nJ - 1) k 8,
        ns i (b.nJ - 1) k 7], 0, cs i (b.nJ - 1) k⟩, true⟩ ?_ hinj
    unfold glueItems
    refine List.mem_append_left _ (List.mem_append_left _
      (List.mem_append_right _ ?_))
    unfold itemsJMax
    exact List.mem_flatMap.mpr ⟨k, seg_mem 1 (b.nK - 1) k hk1 hk2,
      List.mem_map.mpr ⟨i, seg_mem 1 (b.nI - 1) i hi1 hi2, rfl⟩⟩
  · intro i j hi1 hi2 hj1 hj2
    refine applyItems_found _ _ ⟨fseq i j 1 5, ⟨!shared 5, true,
      [ns i j 1 4, ns i j 1 3, ns i j 1 2, ns i j 1 1], 0, cs i j 1⟩,
      true⟩ ?_ hinj
    unfold glueItems
    refine List.mem_append_left _ (List.mem_append_right _ ?_)
    unfold itemsKMin
    exact List.mem_flatMap.mpr ⟨i, seg_mem 1 (b.nI - 1) i hi1 hi2,
      List.mem_map.mpr ⟨j, seg_mem 1 (b.nJ - 1) j hj1 hj2, rfl⟩⟩
  · intro i j hi1 hi2 hj1 hj2
    refine applyItems_found _ _ ⟨fseq i j (b.nK - 1) 6, ⟨!shared 6, true,
      [ns i j (b.nK - 1) 8, ns i j (b.nK - 1) 5, ns i j (b.nK - 1) 6,
        ns i j (b.nK - 1) 7], 0, cs i j (b.nK - 1)⟩, true⟩ ?_ hinj
    unfold glueItems
    refine List.mem_append_right _ ?_
    unfold itemsKMax
    exact List.mem_flatMap.mpr ⟨i, seg_mem 1 (b.nI - 1) i hi1 hi2,
      List.mem_map.mpr ⟨j, seg_mem 1 (b.nJ - 1) j hj1 hj2, rfl⟩⟩

/-- C10 witness: the assembly at a concrete `3x2x2` block, unshared
surfaces, and a concrete injective numbering. -/
theorem C10_face_assembly_tables_witness :
    ∃ fs, glueFaces wcs wns wns ⟨3, 2, 2⟩ (fun _ => false) = .ok fs
      ∧ (∀ i j k, 2 ≤ i → i ≤ 2 → 1 ≤ j → j ≤ 1 → 1 ≤ k → k ≤ 1 →
          fs (wns i j k 1) = some ⟨false, true,
            [wns i j k 1, wns i j k 5, wns i j k 8, wns i j k 4],
            wcs (i - 1) j k, wcs i j k⟩)
      ∧ (∀ i j k, 1 ≤ i → i ≤ 2 → 2 ≤ j → j ≤ 1 → 1 ≤ k → k ≤ 1 →
          fs (wns i j k 3) = some ⟨false, true,
            [wns i j k 6, wns i j k 5, wns i j k 1, wns i j k 2],
            wcs i (j - 1) k, wcs i j k⟩)
      ∧ (∀ i j k, 1 ≤ i → i ≤ 2 → 1 ≤ j → j ≤ 1 → 2 ≤ k → k ≤ 1 →
          fs (wns i j k 5) = some ⟨false, true,
            [wns i j k 4, wns i j k 3, wns i j k 2, wns i j k 1],
            wcs i j (k - 1), wcs i j k⟩)
      ∧ (∀ j k, 1 ≤ j → j ≤ 1 → 1 ≤ k → k ≤ 1 →
          fs (wns 1 j k 1) = some ⟨true, true,
            [wns 1 j k 1, wns 1 j k 5, wns 1 j k 8, wns 1 j k 4],
            0, wcs 1 j k⟩)
      ∧ (∀ j k, 1 ≤ j → j ≤ 1 → 1 ≤ k → k ≤ 1 →
          fs (wns 2 j k 2) = some ⟨true, true,
            [wns 2 j k 2, wns 2 j k 3, wns 2 j k 7, wns 2 j k 6],
            0, wcs 2 j k⟩)
      ∧ (∀ i k, 1 ≤ i → i ≤ 2 → 1 ≤ k → k ≤ 1 →
          fs (wns i 1 k 3) = some ⟨true, true,
            [wns i 1 k 6, wns i 1 k 5, wns i 1 k 1, wns i 1 k 2],
            0, wcs i 1 k⟩)
      ∧ (∀ i k, 1 ≤ i → i ≤ 2 → 1 ≤ k → k ≤ 1 →
          fs (wns i 1 k 4) = some ⟨true, true,
            [wns i 1 k 3, wns i 1 k 4, wns i 1 k 8, wns i 1 k 7],
            0, wcs i 1 k⟩)
      ∧ (∀ i j, 1 ≤ i → i ≤ 2 → 1 ≤ j → j ≤ 1 →
          fs (wns i j 1 5) = some ⟨true, true,
            [wns i j 1 4, wns i j 1 3, wns i j 1 2, wns i j 1 1],
            0, wcs i j 1⟩)
      ∧ (∀ i j, 1 ≤ i → i ≤ 2 → 1 ≤ j → j ≤ 1 →
          fs (wns i j 1 6) = some ⟨true, true,
            [wns i j 1 8, wns i j 1 5, wns i j 1 6, wns i j 1 7],
            0, wcs i j 1⟩) :=
  C10_face_assembly_tables wcs wns wns ⟨3, 2, 2⟩ (fun _ => false) (by decide)

/-- C6 (amended): no area comparison exists anywhere in parsing: a
`ONE_TO_ONE` entry line is parsed successfully whenever its fields fit the
writer's columns, and the connectivity pass accepts it whenever its two
`(block, face)` references resolve - with NO hypothesis relating the two
ranges' areas, so in particular a `2x3` rectangle paired with a `3x3` one is
accepted and never produces an `AreaMismatch` error (no such error exists in
the code). -/
theorem C6_no_area_check (r1 r2 : RANGE) (swp : Bool)
    (slots : List (Option Block3D))
    (hf : entryFieldsOK (ENTRY.double r1 r2 swp))
    (hr1 : rangeRefOK slots r1) (hr2 : rangeRefOK slots r2) :
    entryIter [] (entryLine (kwOf BC.ONE_TO_ONE) (ENTRY.double r1 r2 swp))
        = .ok ([], ENTRY.double r1 r2 swp)
      ∧ establishConn slots [ENTRY.double r1 r2 swp]
        = .ok (updNeigh (updNeigh (fun _ => none) (r1.B, r1.F) (r2.B, r2.F))
            (r2.B, r2.F) (r1.B, r1.F)) := by
  constructor
  · exact entryIter_entryLine (ENTRY.double r1 r2 swp) hf
  · show connFold slots (fun _ => none) [ENTRY.double r1 r2 swp] = _
    rw [connFold_cons, connectOne_ok slots _ r1 r2 swp hr1 hr2]
    rfl

/-- C6 witness: the spec's own scenario - side 1 a `2x3` rectangle (6 quad
cells), side 2 a `3x3` rectangle (9 quad cells) - parses and connects
successfully despite the differing areas. -/
theorem C6_no_area_check_witness :
    RANGE.face_num ⟨1, 1, 1, 3, 1, 4⟩ ≠ RANGE.face_num ⟨2, 1, 1, 4, 1, 4⟩
    ∧ (entryIter []
          (entryLine (kwOf BC.ONE_TO_ONE)
            (ENTRY.double ⟨1, 1, 1, 3, 1, 4⟩ ⟨2, 1, 1, 4, 1, 4⟩ true))
        = .ok ([], ENTRY.double ⟨1, 1, 1, 3, 1, 4⟩ ⟨2, 1, 1, 4, 1, 4⟩ true)
      ∧ establishConn [some ⟨4, 4, 4⟩, some ⟨4, 4, 4⟩]
          [ENTRY.double ⟨1, 1, 1, 3, 1, 4⟩ ⟨2, 1, 1, 4, 1, 4⟩ true]
        = .ok (updNeigh (updNeigh (fun _ => none) (1, 1) (2, 1))
            (2, 1) (1, 1))) :=
  ⟨by decide,
    C6_no_area_check ⟨1, 1, 1, 3, 1, 4⟩ ⟨2, 1, 1, 4, 1, 4⟩ true
      [some ⟨4, 4, 4⟩, some ⟨4, 4, 4⟩] (by decide) (by decide) (by decide)⟩

/-- C7 (amended): the block-dimension loop checks each line's block id only
individually against the interval `[1, N]` and never checks that the ids form
the set `\x7b1..N\x7d`: on any sequence of well-formed dimension lines whose
values satisfy the per-line checks (id in `[1, N]`, dimensions at least 2,
values within `INT_MAX`), the loop succeeds - duplicate ids included - and
each slot ends up holding the block from the LAST line naming it (earlier
lines silently overwritten), while slots of unused ids keep their initial
null value.  No `BlockCountMismatch` rejection exists. -/
theorem C7_no_block_id_set_check (N : Nat) (lines : List (List Char)) :
    ∀ (rest : List (List Char)) (vs : List (Nat × Nat × Nat × Nat))
      (slots : List (Option Block3D)),
      List.Forall₂ (fun l v => dimVals l = some v) lines vs →
      (∀ v ∈ vs, 1 ≤ v.1 ∧ v.1 ≤ N ∧ 2 ≤ v.2.1 ∧ 2 ≤ v.2.2.1 ∧ 2 ≤ v.2.2.2 ∧
        v.1 ≤ 2147483647 ∧ v.2.1 ≤ 2147483647 ∧ v.2.2.1 ≤ 2147483647 ∧
        v.2.2.2 ≤ 2147483647) →
      readBlocksLoop N lines.length slots (lines ++ rest)
        = .ok (vs.foldl (fun sl v => sl.set (v.1 - 1) (some (blockOf v))) slots,
            rest) := by
  induction lines with
  | nil =>
    intro rest vs slots hf _
    cases hf
    simp [readBlocksLoop]
  | cons l ls ih =>
    intro rest vs slots hf hv
    cases hf with
    | cons hlv hrest =>
      rename_i v vs'
      cases hm : matchDimLine l with
      | none =>
        simp only [dimVals, hm] at hlv
        exact Option.noConfusion hlv
      | some q =>
        obtain ⟨a, b, c, d⟩ := q
        simp only [dimVals, hm] at hlv
        obtain rfl := (Option.some.inj hlv).symm
        obtain ⟨h1, h2, h3, h4, h5, h6, h7, h8, h9⟩ :=
          hv _ (List.mem_cons_self _ _)
        have h1' : 1 ≤ readNat a := h1
        have h2' : readNat a ≤ N := h2
        have h3' : 2 ≤ readNat b := h3
        have h4' : 2 ≤ readNat c := h4
        have h5' : 2 ≤ readNat d := h5
        have hsa : stoi a = .ok (readNat a) := by
          unfold stoi; rw [if_pos h6]
        have hsb : stoi b = .ok (readNat b) := by
          unfold stoi; rw [if_pos h7]
        have hsc : stoi c = .ok (readNat c) := by
          unfold stoi; rw [if_pos h8]
        have hsd : stoi d = .ok (readNat d) := by
          unfold stoi; rw [if_pos h9]
        show readBlocksLoop N (ls.length + 1) slots ((l :: ls) ++ rest) = _
        simp only [readBlocksLoop, List.cons_append, List.headD_cons,
          List.tail_cons, hm, hsa, hsb, hsc, hsd]
        rw [if_neg (by omega), if_neg (by omega), if_neg (by omega),
          if_neg (by omega), if_neg (by omega)]
        rw [ih rest vs'
          (slots.set (readNat a - 1) (some ⟨readNat b, readNat c, readNat d⟩))
          hrest (fun x hx => hv x (List.mem_cons_of_mem _ hx))]
        simp only [List.foldl_cons]
        rfl

/-- C7 witness: two dimension lines both carrying block id 2 (block id 1
never appears) are accepted; slot 2 holds the second line's block and slot 1
stays null. -/
theorem C7_no_block_id_set_check_witness :
    readBlocksLoop 2 2 [none, none]
        ([dimLine 1 ⟨2, 2, 2⟩, dimLine 1 ⟨3, 3, 3⟩] ++ [])
      = .ok ([none, some ⟨3, 3, 3⟩], []) :=
  C7_no_block_id_set_check 2 [dimLine 1 ⟨2, 2, 2⟩, dimLine 1 ⟨3, 3, 3⟩] []
    [(2, 2, 2, 2), (2, 3, 3, 3)] [none, none]
    (List.Forall₂.cons (by decide)
      (List.Forall₂.cons (by decide) List.Forall₂.nil))
    (by decide)

/-- C9 witness: round trip on a two-block model with one interface and one
wall entry, all fields inside their columns. -/
theorem C9_roundtrip_amended_witness :
    ∃ g, writeToFile [⟨2, 2, 2⟩, ⟨3, 2, 2⟩]
        [ENTRY.double ⟨1, 2, 1, 2, 1, 2⟩ ⟨2, 1, 1, 2, 1, 2⟩ true,
         ENTRY.single BC.WALL ⟨1, 1, 1, 2, 1, 2⟩] = .ok g
      ∧ readFromFile g
        = .ok (([⟨2, 2, 2⟩, ⟨3, 2, 2⟩] : List Block3D).map some,
            [ENTRY.double ⟨1, 2, 1, 2, 1, 2⟩ ⟨2, 1, 1, 2, 1, 2⟩ true,
             ENTRY.single BC.WALL ⟨1, 1, 1, 2, 1, 2⟩]) :=
  C9_roundtrip_amended [⟨2, 2, 2⟩, ⟨3, 2, 2⟩]
    [ENTRY.double ⟨1, 2, 1, 2, 1, 2⟩ ⟨2, 1, 1, 2, 1, 2⟩ true,
     ENTRY.single BC.WALL ⟨1, 1, 1, 2, 1, 2⟩]
    (by decide) (by decide) (by decide) (by decide) (by decide) (by decide)

end NMF
